import Mathlib

/-!
Shallow embedding of the assembler-plus toolchain (a small ARM64 assembler:
two-pass assembler + bit-exact encoder, a token-emitting pseudocode front-end,
and an IR-producing pseudocode front-end with an IR-to-token code generator).

Machine integers are modelled as `Nat`/`Int` with explicit reductions modulo
powers of two where the C++ performs conversions; fallible code returns
`Except String`.
-/

set_option maxRecDepth 10000

/-! ## Token alphabet (token.h) -/

inductive TokenType where
  | NONE | DOTID | LABEL | ID | HEXINT | REG | ZREG | INT | COMMA | LBRACK | RBRACK | NEWLINE
deriving DecidableEq

structure Token where
  type : TokenType
  lexeme : String
deriving DecidableEq

instance : Inhabited Token := ⟨⟨TokenType.NONE, ""⟩⟩

def nlTok : Token := ⟨TokenType.NEWLINE, ""⟩
def commaTok : Token := ⟨TokenType.COMMA, ","⟩
def lbrackTok : Token := ⟨TokenType.LBRACK, "["⟩
def rbrackTok : Token := ⟨TokenType.RBRACK, "]"⟩

/-! ## Character and string helpers mirroring the C library -/

/-- C `isspace` in the default locale. -/
def isSpaceC (c : Char) : Bool :=
  c = ' ' || c = '\t' || c = '\n' || c = Char.ofNat 11 || c = Char.ofNat 12 || c = '\r'

def isHexDigitC (c : Char) : Bool :=
  c.isDigit || ('a' ≤ c && c ≤ 'f') || ('A' ≤ c && c ≤ 'F')

def isOctDigitC (c : Char) : Bool := '0' ≤ c && c ≤ '7'

/-- `s[0]`; for the empty string C++ `operator[]` yields the terminating NUL. -/
def headCharD (s : String) : Char := s.toList.headD (Char.ofNat 0)

/-- `s.back()`; NUL for the empty string (see `headCharD`). -/
def lastCharD (s : String) : Char := (s.toList.getLast?).getD (Char.ofNat 0)

/-- `s[i]` for in-range reads; NUL as the out-of-range default. -/
def charAt (s : String) (i : Nat) : Char := s.toList.getD i (Char.ofNat 0)

/-- `strip`: drop leading and trailing `isspace` characters (highlevel.h / part_002). -/
def stripStr (s : String) : String :=
  String.mk (((s.toList.dropWhile isSpaceC).reverse.dropWhile isSpaceC).reverse)

/-- `istringstream >> word` splitting: maximal runs of non-space characters. -/
def splitWsAux : List Char → List Char → List String
  | [], acc => if acc = [] then [] else [String.mk acc.reverse]
  | c :: cs, acc =>
    if isSpaceC c then
      if acc = [] then splitWsAux cs []
      else String.mk acc.reverse :: splitWsAux cs []
    else splitWsAux cs (c :: acc)

def splitWs (s : String) : List String := splitWsAux s.toList []

/-- `combined = first; for i in 1.. : combined += " " + rhs[i]` -/
def joinSp (first : String) (rest : List String) : String :=
  rest.foldl (fun acc w => acc ++ " " ++ w) first

/-- `for i in 0..k-1 : if (i) lhs += " "; lhs += words[i]` -/
def joinWords : List String → String
  | [] => ""
  | w :: rest => rest.foldl (fun acc x => acc ++ " " ++ x) w

/-! ## Numeric conversions (std::stoi / std::stoull with base auto-detection) -/

def decVal (ds : List Char) : Nat := ds.foldl (fun a c => a * 10 + (c.toNat - 48)) 0

def hexDigVal (c : Char) : Nat :=
  if c.isDigit then c.toNat - 48
  else if 'a' ≤ c && c ≤ 'f' then c.toNat - 87
  else if 'A' ≤ c && c ≤ 'F' then c.toNat - 55
  else 0

def hexVal (ds : List Char) : Nat := ds.foldl (fun a c => a * 16 + hexDigVal c) 0

def octVal (ds : List Char) : Nat := ds.foldl (fun a c => a * 8 + (c.toNat - 48)) 0

def stoiDigits (cs : List Char) (neg : Bool) : Except String Int :=
  let ds := cs.takeWhile Char.isDigit
  if ds = [] then .error "stoi: no conversion"
  else .ok (if neg then -(decVal ds : Int) else (decVal ds : Int))

/-- `std::stoi(s)` (base 10): skip whitespace, optional sign, maximal digit run;
no digits is an error. Out-of-`int`-range magnitudes are modelled by the
unbounded value; every use in this program range-checks the result, so an
out-of-range magnitude fails in both models. -/
def stoiDecCs (cs : List Char) : Except String Int :=
  let cs1 := cs.dropWhile isSpaceC
  match cs1 with
  | '-' :: r => stoiDigits r true
  | '+' :: r => stoiDigits r false
  | _ => stoiDigits cs1 false

def stoiDec (s : String) : Except String Int := stoiDecCs s.toList

def stoiHexDigits (cs : List Char) (neg : Bool) : Except String Int :=
  let ds := cs.takeWhile isHexDigitC
  if ds = [] then .error "stoi: no conversion"
  else .ok (if neg then -(hexVal ds : Int) else (hexVal ds : Int))

/-- `std::stoi(s, nullptr, 16)`: whitespace, sign, optional `0x`/`0X` prefix,
maximal hex-digit run. -/
def stoiHexCs (cs : List Char) : Except String Int :=
  let cs1 := cs.dropWhile isSpaceC
  let (neg, r) : Bool × List Char :=
    match cs1 with
    | '-' :: r => (true, r)
    | '+' :: r => (false, r)
    | _ => (false, cs1)
  match r with
  | '0' :: x :: rest =>
    if (x = 'x' || x = 'X') && isHexDigitC (rest.headD (Char.ofNat 0)) then
      stoiHexDigits rest neg
    else stoiHexDigits ('0' :: x :: rest) neg
  | _ => stoiHexDigits r neg

def stoiHex (s : String) : Except String Int := stoiHexCs s.toList

def stoullFinish (neg : Bool) (m : Nat) : Except String Nat :=
  if m ≥ 2 ^ 64 then .error "stoull: out of range"
  else .ok (if neg then (2 ^ 64 - m) % 2 ^ 64 else m)

/-- `std::stoull(s, nullptr, 0)`: base auto-detection following `strtoull` —
`0x`/`0X` followed by a hex digit selects base 16, a leading `0` selects
base 8, otherwise base 10; optional sign negates modulo 2^64. -/
def stoullB0 (s : String) : Except String Nat :=
  let cs := s.toList.dropWhile isSpaceC
  let (neg, r) : Bool × List Char :=
    match cs with
    | '-' :: rest => (true, rest)
    | '+' :: rest => (false, rest)
    | _ => (false, cs)
  match r with
  | '0' :: x :: rest =>
    if (x = 'x' || x = 'X') && isHexDigitC (rest.headD (Char.ofNat 0)) then
      stoullFinish neg (hexVal (rest.takeWhile isHexDigitC))
    else stoullFinish neg (octVal (('0' :: x :: rest).takeWhile isOctDigitC))
  | ['0'] => stoullFinish neg 0
  | _ =>
    let ds := r.takeWhile Char.isDigit
    if ds = [] then .error "stoull: no conversion"
    else stoullFinish neg (decVal ds)

/-! ## Fixed-width integer conversions -/

def M64 : Nat := 2 ^ 64

/-- `static_cast<int64_t>` of a `uint64_t`. -/
def toI64 (u : Nat) : Int := if u < 2 ^ 63 then (u : Int) else (u : Int) - 2 ^ 64

/-- `static_cast<int>` of an `int64_t` (C++20 modular conversion). -/
def toI32 (v : Int) : Int := (v + 2 ^ 31) % (2 ^ 32) - 2 ^ 31

/-- `static_cast<uint32_t>` of an `int`. -/
def u32 (v : Int) : Nat := (v % (2 ^ 32)).toNat

/-- Sign-extend a `bits`-wide field value. -/
def signExt (bits : Nat) (v : Nat) : Int :=
  if v < 2 ^ (bits - 1) then (v : Int) else (v : Int) - 2 ^ bits

/-! ## SymbolTable (symbol_table.h) -/

def lookupAssoc : List (String × Nat) → String → Option Nat
  | [], _ => none
  | (k, v) :: rest, n => if k = n then some v else lookupAssoc rest n

structure SymbolTable where
  table : List (String × Nat)
  order : List String
deriving DecidableEq

def SymbolTable.empty : SymbolTable := ⟨[], []⟩

def SymbolTable.contains (st : SymbolTable) (name : String) : Bool :=
  (lookupAssoc st.table name).isSome

/-- `define`: throws on duplicate BEFORE touching either structure, then
updates the map and the insertion-order list together. -/
def SymbolTable.define (st : SymbolTable) (name : String) (addr : Nat) :
    Except String SymbolTable :=
  if st.contains name then .error ("Duplicate label: " ++ name)
  else .ok ⟨st.table ++ [(name, addr)], st.order ++ [name]⟩

def SymbolTable.lookup (st : SymbolTable) (name : String) : Except String Nat :=
  match lookupAssoc st.table name with
  | some a => .ok a
  | none => .error ("Undefined label: " ++ name)

/-! ## Encoder (encoder.h) -/

namespace Encoder

def validRegister (r : Int) : Bool := 0 ≤ r && r ≤ 31

def validSignedImm (v : Int) (bits : Nat) : Bool :=
  let lo : Int := -(2 ^ (bits - 1))
  let hi : Int := 2 ^ (bits - 1) - 1
  lo ≤ v && v ≤ hi

def readImm (s : String) : Except String Int :=
  match s.toList with
  | c0 :: c1 :: c2 :: rest =>
    if c0 = '0' && (c1 = 'x' || c1 = 'X') then stoiHexCs (c2 :: rest)
    else stoiDec s
  | _ => stoiDec s

def readReg (s : String) : Except String Int :=
  if s = "xzr" || s = "sp" then .ok 31
  else if headCharD s ≠ 'x' then .error ("Invalid register: " ++ s)
  else
    match stoiDec (s.drop 1) with
    | .error e => .error e
    | .ok v =>
      if v < 0 || v > 30 then .error ("Register out of range: " ++ s)
      else .ok v

def emit32le (w : Nat) : List Nat :=
  [w &&& 0xFF, (w >>> 8) &&& 0xFF, (w >>> 16) &&& 0xFF, (w >>> 24) &&& 0xFF]

def emit64le (w : Nat) : List Nat :=
  [w &&& 0xFF, (w >>> 8) &&& 0xFF, (w >>> 16) &&& 0xFF, (w >>> 24) &&& 0xFF,
   (w >>> 32) &&& 0xFF, (w >>> 40) &&& 0xFF, (w >>> 48) &&& 0xFF, (w >>> 56) &&& 0xFF]

def requireReg (r : Int) : Except String Unit :=
  if ¬ validRegister r then .error "Invalid register value" else .ok ()

def encodeRRR (base : Nat) (rd rn rm : Int) : Except String Nat :=
  match requireReg rd with
  | .error e => .error e
  | .ok _ =>
    match requireReg rn with
    | .error e => .error e
    | .ok _ =>
      match requireReg rm with
      | .error e => .error e
      | .ok _ => .ok (base ||| rd.toNat ||| (rn.toNat <<< 5) ||| (rm.toNat <<< 16))

def encodeCmp (rn rm : Int) : Except String Nat :=
  match requireReg rn with
  | .error e => .error e
  | .ok _ =>
    match requireReg rm with
    | .error e => .error e
    | .ok _ => .ok (0xEB20601F ||| (rn.toNat <<< 5) ||| (rm.toNat <<< 16))

def encodeBranchReg (base : Nat) (rn : Int) : Except String Nat :=
  match requireReg rn with
  | .error e => .error e
  | .ok _ => .ok (base ||| (rn.toNat <<< 5))

def encodeMem (base : Nat) (rt rn imm : Int) : Except String Nat :=
  match requireReg rt with
  | .error e => .error e
  | .ok _ =>
    match requireReg rn with
    | .error e => .error e
    | .ok _ =>
      if ¬ validSignedImm imm 9 then .error "Immediate out of range for ldur/stur"
      else
        let imm9 := u32 imm &&& 0x1FF
        .ok (base ||| rt.toNat ||| (rn.toNat <<< 5) ||| (imm9 <<< 12))

def encodeLdr (rd offset : Int) : Except String Nat :=
  if offset.tmod 4 ≠ 0 then .error "ldr offset must be divisible by 4"
  else
    match requireReg rd with
    | .error e => .error e
    | .ok _ =>
      if ¬ validSignedImm (offset.tdiv 4) 19 then .error "ldr offset out of range"
      else
        let imm19 := u32 (offset.tdiv 4) &&& 0x7FFFF
        .ok (0x58000000 ||| rd.toNat ||| (imm19 <<< 5))

def encodeBranch (offset : Int) : Except String Nat :=
  if offset.tmod 4 ≠ 0 then .error "b offset must be divisible by 4"
  else if ¬ validSignedImm (offset.tdiv 4) 26 then .error "b offset out of range"
  else
    let imm26 := u32 (offset.tdiv 4) &&& 0x3FFFFFF
    .ok (0x14000000 ||| imm26)

def encodeBCond (cond offset : Int) : Except String Nat :=
  if offset.tmod 4 ≠ 0 then .error "b.cond offset must be divisible by 4"
  else if ¬ validSignedImm (offset.tdiv 4) 19 then .error "b.cond offset out of range"
  else if cond < 0 || cond > 13 then .error "Invalid condition code"
  else
    let imm19 := u32 (offset.tdiv 4) &&& 0x7FFFF
    .ok (0x54000000 ||| (imm19 <<< 5) ||| (u32 cond &&& 0x1F))

def encode (instr : String) (a b c : Int) : Except String Nat :=
  if instr = "add" then encodeRRR 0x8B206000 a b c
  else if instr = "sub" then encodeRRR 0xCB206000 a b c
  else if instr = "mul" then encodeRRR 0x9B007C00 a b c
  else if instr = "smulh" then encodeRRR 0x9B407C00 a b c
  else if instr = "umulh" then encodeRRR 0x9BC07C00 a b c
  else if instr = "sdiv" then encodeRRR 0x9AC00C00 a b c
  else if instr = "udiv" then encodeRRR 0x9AC00800 a b c
  else if instr = "cmp" then encodeCmp a b
  else if instr = "br" then encodeBranchReg 0xD61F0000 a
  else if instr = "blr" then encodeBranchReg 0xD63F0000 a
  else if instr = "ldur" then encodeMem 0xF8400000 a b c
  else if instr = "stur" then encodeMem 0xF8000000 a b c
  else if instr = "ldr" then encodeLdr a b
  else if instr = "b" then encodeBranch a
  else if instr = "b.cond" then encodeBCond a b
  else .error ("Unknown instruction: " ++ instr)

end Encoder

/-! ## Assembler (assembler.h) -/

namespace Assembler

/-- The per-mnemonic operand-pattern table. -/
def patterns (instr : String) : Option String :=
  if instr = "add" then some "rcrcz"
  else if instr = "sub" then some "rcrcz"
  else if instr = "mul" then some "rcrcz"
  else if instr = "smulh" then some "rcrcz"
  else if instr = "umulh" then some "rcrcz"
  else if instr = "sdiv" then some "rcrcz"
  else if instr = "udiv" then some "rcrcz"
  else if instr = "cmp" then some "rcz"
  else if instr = "br" then some "r"
  else if instr = "blr" then some "r"
  else if instr = "ldur" then some "rclrcit"
  else if instr = "stur" then some "rclrcit"
  else if instr = "ldr" then some "rcj"
  else if instr = "b" then some "j"
  else none

def condCodes (s : String) : Option Int :=
  if s = ".eq" then some 0
  else if s = ".ne" then some 1
  else if s = ".hs" then some 2
  else if s = ".lo" then some 3
  else if s = ".hi" then some 8
  else if s = ".ls" then some 9
  else if s = ".ge" then some 10
  else if s = ".lt" then some 11
  else if s = ".gt" then some 12
  else if s = ".le" then some 13
  else none

/-- Collapse the token vector into lines at NEWLINE boundaries, dropping
empty lines; a trailing unterminated line still counts. -/
def groupLinesAux : List Token → List Token → List (List Token)
  | [], cur => if cur = [] then [] else [cur.reverse]
  | t :: ts, cur =>
    if t.type = TokenType.NEWLINE then
      if cur = [] then groupLinesAux ts []
      else cur.reverse :: groupLinesAux ts []
    else groupLinesAux ts (t :: cur)

def groupLines (tokens : List Token) : List (List Token) := groupLinesAux tokens []

def isLabelOnly (line : List Token) : Bool :=
  match line with
  | [t] => t.type = TokenType.LABEL
  | _ => false

def isData8 (line : List Token) : Bool :=
  match line with
  | t :: _ => t.type = TokenType.DOTID && t.lexeme = ".8byte"
  | [] => false

def labelOnlyName (line : List Token) : String :=
  match line with
  | [t] => t.lexeme
  | _ => ""

/-- `if (name.back() == ':') name.pop_back();` -/
def stripColon (s : String) : String :=
  match s.toList.getLast? with
  | some c => if c = ':' then s.dropRight 1 else s
  | none => s

/-- Pass 1: build the symbol table, tracking a 64-bit PC. -/
def pass1Aux (st : SymbolTable) (pc : Nat) : List (List Token) → Except String SymbolTable
  | [] => .ok st
  | line :: rest =>
    if isLabelOnly line then
      match st.define (stripColon (labelOnlyName line)) pc with
      | .error e => .error e
      | .ok st2 => pass1Aux st2 pc rest
    else if isData8 line then pass1Aux st ((pc + 8) % M64) rest
    else pass1Aux st ((pc + 4) % M64) rest

def pass1 (lines : List (List Token)) : Except String SymbolTable :=
  pass1Aux SymbolTable.empty 0 lines

/-- The `.8byte` operand: an `ID` is looked up, anything else goes through
`std::stoull(lexeme, nullptr, 0)`. -/
def data8Value (st : SymbolTable) (t : Token) : Except String Nat :=
  if t.type = TokenType.ID then st.lookup t.lexeme else stoullB0 t.lexeme

/-- One iteration of the pass-2 operand-pattern switch: the values appended to
`args` (empty for the punctuation codes). An unknown pattern character
consumes its token and appends nothing, as in the C++ switch. -/
def patStep (st : SymbolTable) (pc : Nat) (p : Char) (t : Token) : Except String (List Int) :=
  match p with
  | 'r' =>
    if t.type = TokenType.REG || (t.type = TokenType.ID && t.lexeme = "sp") then
      (Encoder.readReg t.lexeme).map (fun v => [v])
    else .error "Expected register or sp"
  | 'z' =>
    if t.type ≠ TokenType.REG && t.type ≠ TokenType.ZREG then .error "Expected register or xzr"
    else (Encoder.readReg t.lexeme).map (fun v => [v])
  | 'c' => if t.type ≠ TokenType.COMMA then .error "Expected comma" else .ok []
  | 'l' => if t.type ≠ TokenType.LBRACK then .error "Expected open bracket" else .ok []
  | 't' => if t.type ≠ TokenType.RBRACK then .error "Expected close bracket" else .ok []
  | 'i' =>
    if t.type = TokenType.INT || t.type = TokenType.HEXINT then
      (Encoder.readImm t.lexeme).map (fun v => [v])
    else .error "Expected immediate"
  | 'j' =>
    if t.type = TokenType.INT || t.type = TokenType.HEXINT then
      (Encoder.readImm t.lexeme).map (fun v => [v])
    else if t.type = TokenType.ID then
      (st.lookup t.lexeme).map (fun addr => [toI32 (toI64 addr - toI64 pc)])
    else .error "Expected immediate or label"
  | _ => .ok []

/-- The pass-2 pattern loop: `Too few operands` when tokens run out, `Extra
tokens` when tokens remain after the pattern. -/
def decodeOps (st : SymbolTable) (pc : Nat) :
    List Char → List Token → List Int → Except String (List Int)
  | [], toks, args => if toks = [] then .ok args else .error "Extra tokens"
  | _ :: _, [], _ => .error "Too few operands"
  | p :: ps, t :: ts, args =>
    match patStep st pc p t with
    | .error e => .error e
    | .ok vs => decodeOps st pc ps ts (args ++ vs)

def argD (args : List Int) (i : Nat) : Int := args.getD i 0

/-- The pass-2 instruction path: mnemonic lookup, the `b.cond` special case,
operand decoding, and the encoder dispatch; yields the 32-bit word. -/
def instrWord (st : SymbolTable) (pc : Nat) (line : List Token) : Except String Nat :=
  match line with
  | [] => .error "Expected instruction, got nothing"
  | t0 :: rest =>
    if t0.type ≠ TokenType.ID then .error ("Expected instruction, got: " ++ t0.lexeme)
    else
      let instr := t0.lexeme
      match patterns instr with
      | none => .error ("Unknown instruction: " ++ instr)
      | some pattern0 =>
        match rest with
        | t1 :: rest2 =>
          if instr = "b" && t1.type = TokenType.DOTID then
            match condCodes t1.lexeme with
            | none => .error ("Invalid condition: " ++ t1.lexeme)
            | some cv =>
              match decodeOps st pc ['j'] rest2 [cv] with
              | .error e => .error e
              | .ok args => Encoder.encode "b.cond" (argD args 0) (argD args 1) (argD args 2)
          else
            match decodeOps st pc pattern0.toList rest [] with
            | .error e => .error e
            | .ok args => Encoder.encode instr (argD args 0) (argD args 1) (argD args 2)
        | [] =>
          match decodeOps st pc pattern0.toList [] [] with
          | .error e => .error e
          | .ok args => Encoder.encode instr (argD args 0) (argD args 1) (argD args 2)

/-- Pass 2: encode and emit, threading the same 64-bit PC as pass 1. -/
def pass2Aux (st : SymbolTable) (pc : Nat) : List (List Token) → Except String (List Nat)
  | [] => .ok []
  | line :: rest =>
    if line = [] then pass2Aux st pc rest
    else if isLabelOnly line then pass2Aux st pc rest
    else if isData8 line then
      match line with
      | _ :: [] => .error "Missing operand for .8byte"
      | _ :: v :: _ =>
        match data8Value st v with
        | .error e => .error e
        | .ok val => (pass2Aux st ((pc + 8) % M64) rest).map (fun bs => Encoder.emit64le val ++ bs)
      | [] => .error "Missing operand for .8byte"
    else
      match instrWord st pc line with
      | .error e => .error e
      | .ok w => (pass2Aux st ((pc + 4) % M64) rest).map (fun bs => Encoder.emit32le w ++ bs)

/-- Assemble a token stream: group lines, pass 1, pass 2; the primary-channel
bytes. -/
def assembleTokens (tokens : List Token) : Except String (List Nat) :=
  match pass1 (groupLines tokens) with
  | .error e => .error e
  | .ok st => pass2Aux st 0 (groupLines tokens)

end Assembler

/-! ## Token-emitting pseudocode front-end (highlevel.h) -/

namespace HighLevel

def regToken (s : String) : Except String Token :=
  if s = "xzr" then .ok ⟨TokenType.ZREG, s⟩
  else if s = "sp" then .ok ⟨TokenType.ID, s⟩
  else if s.length ≥ 2 && headCharD s = 'x' && (charAt s 1).isDigit then .ok ⟨TokenType.REG, s⟩
  else .error ("Expected register, got: " ++ s)

def isInteger (s : String) : Bool :=
  match s.toList with
  | [] => false
  | c :: rest =>
    let ds := if c = '-' || c = '+' then rest else c :: rest
    ds ≠ [] && ds.all Char.isDigit

def immOrLabel (s : String) : Except String Token :=
  if s = "" then .error "Empty immediate/label"
  else if headCharD s = '0' && s.length > 2 && (charAt s 1 = 'x' || charAt s 1 = 'X') then
    .ok ⟨TokenType.HEXINT, s⟩
  else if isInteger s then .ok ⟨TokenType.INT, s⟩
  else .ok ⟨TokenType.ID, s⟩

def isReg (s : String) : Bool :=
  s = "xzr" || s = "sp" || (s.length ≥ 2 && headCharD s = 'x' && (charAt s 1).isDigit)

def condSuffix (op : String) : Except String String :=
  if op = "==" then .ok ".eq"
  else if op = "!=" then .ok ".ne"
  else if op = "<" then .ok ".lt"
  else if op = "<=" then .ok ".le"
  else if op = ">" then .ok ".gt"
  else if op = ">=" then .ok ".ge"
  else .error ("Unknown comparison operator: " ++ op)

def emitInstr (instr a b c : String) : Except String (List Token) :=
  match regToken a with
  | .error e => .error e
  | .ok ta =>
    match regToken b with
    | .error e => .error e
    | .ok tb =>
      match regToken c with
      | .error e => .error e
      | .ok tc => .ok [⟨TokenType.ID, instr⟩, ta, commaTok, tb, commaTok, tc]

def parseArith (dst lhs op rhs : String) : Except String (List Token) :=
  if op = "+" then emitInstr "add" dst lhs rhs
  else if op = "-" then emitInstr "sub" dst lhs rhs
  else if op = "*" then emitInstr "mul" dst lhs rhs
  else if op = "/" then emitInstr "sdiv" dst lhs rhs
  else if op = "%" then
    match emitInstr "sdiv" dst lhs rhs with
    | .error e => .error e
    | .ok i1 =>
      match emitInstr "mul" dst dst rhs with
      | .error e => .error e
      | .ok i2 =>
        match emitInstr "sub" dst lhs dst with
        | .error e => .error e
        | .ok i3 => .ok (i1 ++ [nlTok] ++ i2 ++ [nlTok] ++ i3)
  else .error ("Unknown operator: " ++ op)

def ldurToks (dest base offset : String) : Except String (List Token) :=
  match regToken dest with
  | .error e => .error e
  | .ok td =>
    match regToken base with
    | .error e => .error e
    | .ok tb =>
      .ok [⟨TokenType.ID, "ldur"⟩, td, commaTok, lbrackTok, tb, commaTok,
           ⟨TokenType.INT, offset⟩, rbrackTok]

def parseLoad (dest : String) (rhs : List String) : Except String (List Token) :=
  let first := (rhs.headD "").drop 1
  if first = "" || headCharD first = '(' then
    let combined := joinSp first rhs.tail
    let c1 := if headCharD combined = '(' then combined.drop 1 else combined
    let c2 := if lastCharD c1 = ')' then c1.dropRight 1 else c1
    match splitWs c2 with
    | [b] => ldurToks dest b "0"
    | [b, pl, off] => if pl = "+" then ldurToks dest b off else .error "Bad load syntax"
    | _ => .error "Bad load syntax"
  else ldurToks dest first "0"

def sturToks (val base offset : String) : Except String (List Token) :=
  match regToken val with
  | .error e => .error e
  | .ok tv =>
    match regToken base with
    | .error e => .error e
    | .ok tb =>
      .ok [⟨TokenType.ID, "stur"⟩, tv, commaTok, lbrackTok, tb, commaTok,
           ⟨TokenType.INT, offset⟩, rbrackTok]

def parseStore (ws : List String) (k : Nat) : Except String (List Token) :=
  let lhs0 := joinWords (ws.take k)
  if k + 1 ≥ ws.length then .error "Missing value in store"
  else
    let val := ws.getD (k + 1) ""
    let lhs := lhs0.drop 1
    if lhs = "" || headCharD lhs = '(' then
      let c1 := if headCharD lhs = '(' then lhs.drop 1 else lhs
      let c2 := if lastCharD c1 = ')' then c1.dropRight 1 else c1
      match splitWs c2 with
      | [b] => sturToks val b "0"
      | [b, pl, off] => if pl = "+" then sturToks val b off else .error "Bad store syntax"
      | _ => .error "Bad store syntax"
    else sturToks val lhs "0"

/-- `parseLine` on the whitespace-split words of a stripped line. -/
def parseWords (ws : List String) : Except String (List Token) :=
  match ws with
  | [] => .ok []
  | w0 :: wrest =>
    if w0 = "label" then
      match wrest with
      | [] => .error "label requires a name"
      | n :: _ => .ok [⟨TokenType.LABEL, n ++ ":"⟩]
    else if w0 = "goto" then
      match wrest with
      | [] => .error "goto requires a label"
      | l :: _ => (immOrLabel l).map (fun t => [⟨TokenType.ID, "b"⟩, t])
    else if w0 = "call" then
      match wrest with
      | [] => .error "call requires a register"
      | r :: _ => (regToken r).map (fun t => [⟨TokenType.ID, "blr"⟩, t])
    else if w0 = "ret" then .ok [⟨TokenType.ID, "br"⟩, ⟨TokenType.REG, "x30"⟩]
    else if w0 = ".8byte" then
      match wrest with
      | [] => .error ".8byte requires a value"
      | v :: _ => (immOrLabel v).map (fun t => [⟨TokenType.DOTID, ".8byte"⟩, t])
    else if w0 = "if" then
      match ws with
      | _ :: rn :: op :: rm :: g :: lbl :: _ =>
        if g ≠ "goto" then .error "Syntax: if reg op reg goto label"
        else
          match regToken rn with
          | .error e => .error e
          | .ok t1 =>
            match regToken rm with
            | .error e => .error e
            | .ok t2 =>
              match condSuffix op with
              | .error e => .error e
              | .ok cs =>
                match immOrLabel lbl with
                | .error e => .error e
                | .ok t3 =>
                  .ok [⟨TokenType.ID, "cmp"⟩, t1, commaTok, t2, nlTok,
                       ⟨TokenType.ID, "b"⟩, ⟨TokenType.DOTID, cs⟩, t3]
      | _ => .error "Syntax: if reg op reg goto label"
    else
      match List.findIdx? (fun w => w = "=") ws with
      | none => .error "Unrecognized statement"
      | some k =>
        if headCharD w0 = '*' then parseStore ws k
        else if k ≠ 1 then .error "Expected register = ..."
        else
          let dest := w0
          let rhs := ws.drop 2
          match rhs with
          | [] => .error "Unrecognized assignment"
          | r0 :: _ =>
            if headCharD r0 = '*' then parseLoad dest rhs
            else
              match rhs with
              | [a, op2, b2] =>
                if isReg a && isReg b2 then parseArith dest a op2 b2
                else .error "Unrecognized assignment"
              | [a] =>
                if isReg a then
                  match regToken dest with
                  | .error e => .error e
                  | .ok td =>
                    match regToken a with
                    | .error e => .error e
                    | .ok ta =>
                      .ok [⟨TokenType.ID, "add"⟩, td, commaTok, ta, commaTok,
                           ⟨TokenType.ZREG, "xzr"⟩]
                else .error "Unrecognized assignment"
              | _ => .error "Unrecognized assignment"

/-- `HighLevelParser::parse` (token-emitting): per input line, comments and
blank lines contribute a lone NEWLINE; other lines contribute their tokens
followed by a NEWLINE. -/
def parse : List String → Except String (List Token)
  | [] => .ok []
  | l :: ls =>
    let s := stripStr l
    if s = "" || headCharD s = '#' then (parse ls).map (fun ts => nlTok :: ts)
    else
      match parseWords (splitWs s) with
      | .error e => .error e
      | .ok ts =>
        match parse ls with
        | .error e => .error e
        | .ok rest => .ok (ts ++ [nlTok] ++ rest)

end HighLevel

/-! ## IR (ir.h, src/unnamed/part_001) -/

inductive IROp where
  | ADD | SUB | MUL | DIV | MOD | MOV | LOAD | STORE | CMP_BRANCH | BRANCH | CALL | RET | LABEL | DATA8
deriving DecidableEq

structure IRInstruction where
  op : IROp
  dst : String := ""
  src1 : String := ""
  src2 : String := ""
  label : String := ""
  cond : String := ""
  imm : String := ""
deriving DecidableEq

/-! ## IR-producing pseudocode front-end (src/unnamed/part_002) -/

namespace HighLevelIR

def isInteger (s : String) : Bool :=
  match s.toList with
  | [] => false
  | c :: rest =>
    let ds := if c = '-' || c = '+' then rest else c :: rest
    ds ≠ [] && ds.all Char.isDigit

def isReg (s : String) : Bool :=
  s = "xzr" || s = "sp" || (s.length ≥ 2 && headCharD s = 'x' && (charAt s 1).isDigit)

def parseLoad (dest : String) (rhs : List String) : Except String (List IRInstruction) :=
  let first := (rhs.headD "").drop 1
  if first = "" || headCharD first = '(' then
    let combined := joinSp first rhs.tail
    let c1 := if headCharD combined = '(' then combined.drop 1 else combined
    let c2 := if lastCharD c1 = ')' then c1.dropRight 1 else c1
    match splitWs c2 with
    | [b] => .ok [{ op := IROp.LOAD, dst := dest, src1 := b, imm := "0" }]
    | [b, pl, off] =>
      if pl = "+" then .ok [{ op := IROp.LOAD, dst := dest, src1 := b, imm := off }]
      else .error "Bad load syntax"
    | _ => .error "Bad load syntax"
  else .ok [{ op := IROp.LOAD, dst := dest, src1 := first, imm := "0" }]

def parseStore (ws : List String) (k : Nat) : Except String (List IRInstruction) :=
  let lhs0 := joinWords (ws.take k)
  if k + 1 ≥ ws.length then .error "Missing value in store"
  else
    let val := ws.getD (k + 1) ""
    let lhs := lhs0.drop 1
    if lhs = "" || headCharD lhs = '(' then
      let c1 := if headCharD lhs = '(' then lhs.drop 1 else lhs
      let c2 := if lastCharD c1 = ')' then c1.dropRight 1 else c1
      match splitWs c2 with
      | [b] => .ok [{ op := IROp.STORE, dst := b, src1 := val, imm := "0" }]
      | [b, pl, off] =>
        if pl = "+" then .ok [{ op := IROp.STORE, dst := b, src1 := val, imm := off }]
        else .error "Bad store syntax"
      | _ => .error "Bad store syntax"
    else .ok [{ op := IROp.STORE, dst := lhs, src1 := val, imm := "0" }]

def parseWords (ws : List String) : Except String (List IRInstruction) :=
  match ws with
  | [] => .ok []
  | w0 :: wrest =>
    if w0 = "label" then
      match wrest with
      | [] => .error "label requires a name"
      | n :: _ => .ok [{ op := IROp.LABEL, dst := n }]
    else if w0 = "goto" then
      match wrest with
      | [] => .error "goto requires a label"
      | l :: _ => .ok [{ op := IROp.BRANCH, label := l }]
    else if w0 = "call" then
      match wrest with
      | [] => .error "call requires a register"
      | r :: _ => .ok [{ op := IROp.CALL, src1 := r }]
    else if w0 = "ret" then .ok [{ op := IROp.RET }]
    else if w0 = ".8byte" then
      match wrest with
      | [] => .error ".8byte requires a value"
      | v :: _ => .ok [{ op := IROp.DATA8, imm := v }]
    else if w0 = "if" then
      match ws with
      | _ :: rn :: op :: rm :: g :: lbl :: _ =>
        if g ≠ "goto" then .error "Syntax: if reg op reg goto label"
        else .ok [{ op := IROp.CMP_BRANCH, src1 := rn, src2 := rm, label := lbl, cond := op }]
      | _ => .error "Syntax: if reg op reg goto label"
    else
      match List.findIdx? (fun w => w = "=") ws with
      | none => .error "Unrecognized statement"
      | some k =>
        if headCharD w0 = '*' then parseStore ws k
        else if k ≠ 1 then .error "Expected register = ..."
        else
          let dest := w0
          let rhs := ws.drop 2
          match rhs with
          | [] => .error "Unrecognized assignment"
          | r0 :: _ =>
            if headCharD r0 = '*' then parseLoad dest rhs
            else
              match rhs with
              | [a, op2, b2] =>
                if isReg a && isReg b2 then
                  if op2 = "+" then .ok [{ op := IROp.ADD, dst := dest, src1 := a, src2 := b2 }]
                  else if op2 = "-" then .ok [{ op := IROp.SUB, dst := dest, src1 := a, src2 := b2 }]
                  else if op2 = "*" then .ok [{ op := IROp.MUL, dst := dest, src1 := a, src2 := b2 }]
                  else if op2 = "/" then .ok [{ op := IROp.DIV, dst := dest, src1 := a, src2 := b2 }]
                  else if op2 = "%" then .ok [{ op := IROp.MOD, dst := dest, src1 := a, src2 := b2 }]
                  else .error ("Unknown operator: " ++ op2)
                else .error "Unrecognized assignment"
              | [a] =>
                if isReg a then .ok [{ op := IROp.MOV, dst := dest, src1 := a }]
                else .error "Unrecognized assignment"
              | _ => .error "Unrecognized assignment"

/-- `HighLevelParser::parse` (IR-producing): comments and blank lines are
skipped entirely. -/
def parse : List String → Except String (List IRInstruction)
  | [] => .ok []
  | l :: ls =>
    let s := stripStr l
    if s = "" || headCharD s = '#' then parse ls
    else
      match parseWords (splitWs s) with
      | .error e => .error e
      | .ok is =>
        match parse ls with
        | .error e => .error e
        | .ok rest => .ok (is ++ rest)

end HighLevelIR

/-! ## IR code generator (ir_codegen.h) -/

namespace IRCodeGen

def regToken (s : String) : Except String Token :=
  if s = "xzr" then .ok ⟨TokenType.ZREG, s⟩
  else if s = "sp" then .ok ⟨TokenType.ID, s⟩
  else if s.length ≥ 2 && headCharD s = 'x' && (charAt s 1).isDigit then .ok ⟨TokenType.REG, s⟩
  else .error ("IRCodeGen: expected register, got: " ++ s)

def isIntLex (s : String) : Bool :=
  match s.toList with
  | [] => false
  | c :: rest =>
    let ds := if c = '-' || c = '+' then rest else c :: rest
    ds ≠ [] && ds.all Char.isDigit

def immOrLabel (s : String) : Except String Token :=
  if s = "" then .error "IRCodeGen: empty immediate/label"
  else if headCharD s = '0' && s.length > 2 && (charAt s 1 = 'x' || charAt s 1 = 'X') then
    .ok ⟨TokenType.HEXINT, s⟩
  else if isIntLex s then .ok ⟨TokenType.INT, s⟩
  else .ok ⟨TokenType.ID, s⟩

def condSuffix (cond : String) : Except String String :=
  if cond = "==" then .ok ".eq"
  else if cond = "!=" then .ok ".ne"
  else if cond = "<" then .ok ".lt"
  else if cond = "<=" then .ok ".le"
  else if cond = ">" then .ok ".gt"
  else if cond = ">=" then .ok ".ge"
  else .error ("IRCodeGen: unknown condition: " ++ cond)

def emit3Reg (instr a b c : String) : Except String (List Token) :=
  match regToken a with
  | .error e => .error e
  | .ok ta =>
    match regToken b with
    | .error e => .error e
    | .ok tb =>
      match regToken c with
      | .error e => .error e
      | .ok tc => .ok [⟨TokenType.ID, instr⟩, ta, commaTok, tb, commaTok, tc]

def lowerOne (inst : IRInstruction) : Except String (List Token) :=
  match inst.op with
  | IROp.LABEL => .ok [⟨TokenType.LABEL, inst.dst ++ ":"⟩]
  | IROp.ADD => emit3Reg "add" inst.dst inst.src1 inst.src2
  | IROp.SUB => emit3Reg "sub" inst.dst inst.src1 inst.src2
  | IROp.MUL => emit3Reg "mul" inst.dst inst.src1 inst.src2
  | IROp.DIV => emit3Reg "sdiv" inst.dst inst.src1 inst.src2
  | IROp.MOD =>
    match emit3Reg "sdiv" inst.dst inst.src1 inst.src2 with
    | .error e => .error e
    | .ok i1 =>
      match emit3Reg "mul" inst.dst inst.dst inst.src2 with
      | .error e => .error e
      | .ok i2 =>
        match emit3Reg "sub" inst.dst inst.src1 inst.dst with
        | .error e => .error e
        | .ok i3 => .ok (i1 ++ [nlTok] ++ i2 ++ [nlTok] ++ i3)
  | IROp.MOV => emit3Reg "add" inst.dst inst.src1 "xzr"
  | IROp.LOAD =>
    match regToken inst.dst with
    | .error e => .error e
    | .ok td =>
      match regToken inst.src1 with
      | .error e => .error e
      | .ok tb =>
        .ok [⟨TokenType.ID, "ldur"⟩, td, commaTok, lbrackTok, tb, commaTok,
             ⟨TokenType.INT, inst.imm⟩, rbrackTok]
  | IROp.STORE =>
    match regToken inst.src1 with
    | .error e => .error e
    | .ok tv =>
      match regToken inst.dst with
      | .error e => .error e
      | .ok tb =>
        .ok [⟨TokenType.ID, "stur"⟩, tv, commaTok, lbrackTok, tb, commaTok,
             ⟨TokenType.INT, inst.imm⟩, rbrackTok]
  | IROp.CMP_BRANCH =>
    match regToken inst.src1 with
    | .error e => .error e
    | .ok t1 =>
      match regToken inst.src2 with
      | .error e => .error e
      | .ok t2 =>
        match condSuffix inst.cond with
        | .error e => .error e
        | .ok cs =>
          match immOrLabel inst.label with
          | .error e => .error e
          | .ok t3 =>
            .ok [⟨TokenType.ID, "cmp"⟩, t1, commaTok, t2, nlTok,
                 ⟨TokenType.ID, "b"⟩, ⟨TokenType.DOTID, cs⟩, t3]
  | IROp.BRANCH => (immOrLabel inst.label).map (fun t => [⟨TokenType.ID, "b"⟩, t])
  | IROp.CALL => (regToken inst.src1).map (fun t => [⟨TokenType.ID, "blr"⟩, t])
  | IROp.RET => .ok [⟨TokenType.ID, "br"⟩, ⟨TokenType.REG, "x30"⟩]
  | IROp.DATA8 => (immOrLabel inst.imm).map (fun t => [⟨TokenType.DOTID, ".8byte"⟩, t])

/-- `IRCodeGen::lower`: each instruction's tokens followed by a NEWLINE. -/
def lower : List IRInstruction → Except String (List Token)
  | [] => .ok []
  | i :: is =>
    match lowerOne i with
    | .error e => .error e
    | .ok ts =>
      match lower is with
      | .error e => .error e
      | .ok rest => .ok (ts ++ [nlTok] ++ rest)

end IRCodeGen

/-! ## Generic helpers -/

def isOkE {α : Type} (e : Except String α) : Bool :=
  match e with
  | .ok _ => true
  | .error _ => false

/-! ## Derived definitions used by the verification -/

/-- The PC increment a statement line causes in either pass (pass 1 uses
label-only / `.8byte` / other; a successful pass 2 advances identically). -/
def lineAdvance (line : List Token) : Nat :=
  if Assembler.isLabelOnly line then 0
  else if Assembler.isData8 line then 8
  else 4

/-- Fold the per-line PC increments (64-bit wraparound) over a line list. -/
def pcFold (pc : Nat) : List (List Token) → Nat
  | [] => pc
  | l :: ls => pcFold ((pc + lineAdvance l) % M64) ls

/-- The label a label-only line defines (colon stripped). -/
def labelLineName (line : List Token) : Option String :=
  if Assembler.isLabelOnly line then some (Assembler.stripColon (Assembler.labelOnlyName line))
  else none

/-- A `.8byte 0` statement line. -/
def d8ZeroLine : List Token := [⟨TokenType.DOTID, ".8byte"⟩, ⟨TokenType.INT, "0"⟩]

/-- A label-only line defining `L`. -/
def labLLine : List Token := [⟨TokenType.LABEL, "L:"⟩]

/-- The statement `b L`. -/
def bLLine : List Token := [⟨TokenType.ID, "b"⟩, ⟨TokenType.ID, "L"⟩]

/-- A program whose `b L` sits 2^32 bytes after label `L`: label `L`,
then 2^29 `.8byte 0` statements, then `b L`. -/
def hugeProg : List (List Token) := labLLine :: (List.replicate (2 ^ 29) d8ZeroLine ++ [bLLine])

/-- The same program as a newline-terminated token stream. -/
def hugeToks : List Token := (hugeProg.map (fun l => l ++ [nlTok])).flatten

/-- Agreement of the two pseudocode front-ends on one input: both fail, or
both succeed with token streams that group into the same statements. -/
def FrontEndAgree (a b : Except String (List Token)) : Prop :=
  match a, b with
  | .ok x, .ok y => Assembler.groupLines x = Assembler.groupLines y
  | .error _, .error _ => True
  | _, _ => False

/-- Agreement of two fallible computations: both fail, or same value. -/
def ExSim {α : Type} (a b : Except String α) : Prop :=
  match a, b with
  | .ok x, .ok y => x = y
  | .error _, .error _ => True
  | _, _ => False

/-- `lowerOne` over the 0/1 instructions a single source line parses to,
without the per-instruction NEWLINE. -/
def lowerCat : List IRInstruction → Except String (List Token)
  | [] => .ok []
  | i :: is =>
    match IRCodeGen.lowerOne i with
    | .error e => .error e
    | .ok ts =>
      match lowerCat is with
      | .error e => .error e
      | .ok rest => .ok (ts ++ rest)

/-- One cons-step of the token-emitting parse: line tokens, NEWLINE, rest. -/
def hlStep (p a : Except String (List Token)) : Except String (List Token) :=
  match p with
  | .error e => .error e
  | .ok ts =>
    match a with
    | .error e => .error e
    | .ok rest => .ok (ts ++ [nlTok] ++ rest)

/-- One cons-step of the IR-producing parse: line instructions then rest. -/
def irStep (q b : Except String (List IRInstruction)) : Except String (List IRInstruction) :=
  match q with
  | .error e => .error e
  | .ok is =>
    match b with
    | .error e => .error e
    | .ok r => .ok (is ++ r)

/-! ## Bit-level helper lemmas -/

theorem lorShiftRight (a b n : Nat) : (a ||| b) >>> n = (a >>> n) ||| (b >>> n) := by
  apply Nat.eq_of_testBit_eq
  intro i
  simp [Nat.testBit_lor, Nat.testBit_shiftRight]

theorem shiftLeftRightSelf (x n : Nat) : (x <<< n) >>> n = x := by
  simp [Nat.shiftLeft_eq, Nat.shiftRight_eq_div_pow]

theorem shiftRightZeroOfLt (x n : Nat) (h : x < 2 ^ n) : x >>> n = 0 := by
  rw [Nat.shiftRight_eq_div_pow]
  exact Nat.div_eq_of_lt h

theorem andMask26 (x : Nat) : x &&& 0x3FFFFFF = x % 2 ^ 26 := by
  have h : (0x3FFFFFF : Nat) = 2 ^ 26 - 1 := by norm_num
  rw [h, Nat.and_pow_two_sub_one_eq_mod]

theorem andMask19 (x : Nat) : x &&& 0x7FFFF = x % 2 ^ 19 := by
  have h : (0x7FFFF : Nat) = 2 ^ 19 - 1 := by norm_num
  rw [h, Nat.and_pow_two_sub_one_eq_mod]

theorem andMask9 (x : Nat) : x &&& 0x1FF = x % 2 ^ 9 := by
  have h : (0x1FF : Nat) = 2 ^ 9 - 1 := by norm_num
  rw [h, Nat.and_pow_two_sub_one_eq_mod]

theorem andMask5 (x : Nat) : x &&& 0x1F = x % 2 ^ 5 := by
  have h : (0x1F : Nat) = 2 ^ 5 - 1 := by norm_num
  rw [h, Nat.and_pow_two_sub_one_eq_mod]

theorem signExt26u32 (q : Int) (h1 : -(2 ^ 25) ≤ q) (h2 : q ≤ 2 ^ 25 - 1) :
    signExt 26 (u32 q % 2 ^ 26) = q := by
  unfold signExt u32
  have e32 : (2 : Int) ^ 32 = 4294967296 := by norm_num
  have e26 : (2 : Nat) ^ 26 = 67108864 := by norm_num
  rw [e32, e26]
  split <;> omega

theorem signExt19u32 (q : Int) (h1 : -(2 ^ 18) ≤ q) (h2 : q ≤ 2 ^ 18 - 1) :
    signExt 19 (u32 q % 2 ^ 19) = q := by
  unfold signExt u32
  have e32 : (2 : Int) ^ 32 = 4294967296 := by norm_num
  have e19 : (2 : Nat) ^ 19 = 524288 := by norm_num
  rw [e32, e19]
  split <;> omega

/-! ## Encoder field-extraction lemmas -/

namespace Encoder

theorem validSignedImm26 (v : Int) :
    validSignedImm v 26 = true ↔ (-(2 ^ 25) ≤ v ∧ v ≤ 2 ^ 25 - 1) := by
  simp [validSignedImm]

theorem validSignedImm19 (v : Int) :
    validSignedImm v 19 = true ↔ (-(2 ^ 18) ≤ v ∧ v ≤ 2 ^ 18 - 1) := by
  simp [validSignedImm]

theorem validSignedImm9 (v : Int) :
    validSignedImm v 9 = true ↔ (-(2 ^ 8) ≤ v ∧ v ≤ 2 ^ 8 - 1) := by
  simp [validSignedImm]

/-- Divisibility: the C `%` (truncating remainder) is zero exactly when the
truncating quotient is exact. -/
theorem tmodFourZero (off : Int) (h : off.tmod 4 = 0) : 4 * off.tdiv 4 = off := by
  have hh := Int.tdiv_add_tmod off 4
  omega

/-- `encodeBranch` success: the offset was divisible by 4 with a 26-bit
signed quotient, and the low 26 bits of the word, sign-extended and
multiplied by 4, recover the offset. -/
theorem encodeBranch_field (off : Int) (w : Nat) (h : encodeBranch off = .ok w) :
    off.tmod 4 = 0 ∧ validSignedImm (off.tdiv 4) 26 = true ∧
    signExt 26 (w &&& 0x3FFFFFF) * 4 = off := by
  unfold encodeBranch at h
  split at h
  · exact absurd h (by simp)
  split at h
  · exact absurd h (by simp)
  rename_i h4 hv
  simp only [ne_eq, not_not] at h4 hv
  simp only [Except.ok.injEq] at h
  subst h
  refine ⟨h4, hv, ?_⟩
  obtain ⟨hlo, hhi⟩ := (validSignedImm26 _).mp hv
  have hoff := tmodFourZero off h4
  rw [Nat.and_distrib_right]
  have hbase : (0x14000000 &&& 0x3FFFFFF : Nat) = 0 := by decide
  rw [hbase, Nat.zero_or, Nat.and_assoc, Nat.and_self, andMask26, signExt26u32 _ hlo hhi]
  omega

/-- `encodeBranch` succeeds exactly when the (already 32-bit) offset is
divisible by 4 and its quotient fits 26 signed bits. -/
theorem encodeBranch_ok_iff (off : Int) :
    isOkE (encodeBranch off) = true ↔
      (off.tmod 4 = 0 ∧ validSignedImm (off.tdiv 4) 26 = true) := by
  unfold encodeBranch
  by_cases h4 : off.tmod 4 ≠ 0
  · rw [if_pos h4]
    simp only [isOkE]
    constructor
    · intro habs
      exact absurd habs (by decide)
    · intro hp
      exact absurd hp.1 h4
  · rw [if_neg h4]
    rw [not_not] at h4
    by_cases hv : validSignedImm (off.tdiv 4) 26 = true
    · rw [if_neg (not_not_intro hv)]
      simp only [isOkE]
      exact ⟨fun _ => ⟨h4, hv⟩, fun _ => trivial⟩
    · rw [if_pos hv]
      simp only [isOkE]
      constructor
      · intro habs
        exact absurd habs (by decide)
      · intro hp
        exact absurd hp.2 hv

theorem requireReg_ok (r : Int) (u : Unit) (h : requireReg r = .ok u) :
    0 ≤ r ∧ r ≤ 31 := by
  unfold requireReg at h
  split at h
  · exact absurd h (by simp)
  rename_i hv
  rw [not_not] at hv
  simpa [validRegister] using hv

/-- `encodeLdr` success: field placement of the 19-bit quotient at bits 5..23;
sign-extending the field and multiplying by 4 recovers the offset. -/
theorem encodeLdr_field (rd off : Int) (w : Nat) (h : encodeLdr rd off = .ok w) :
    off.tmod 4 = 0 ∧ validSignedImm (off.tdiv 4) 19 = true ∧
    signExt 19 ((w >>> 5) &&& 0x7FFFF) * 4 = off := by
  unfold encodeLdr at h
  split at h
  · exact absurd h (by simp)
  rename_i h4
  simp only [ne_eq, not_not] at h4
  split at h
  · exact absurd h (by simp)
  rename_i u hreq
  obtain ⟨hr0, hr31⟩ := requireReg_ok rd u hreq
  split at h
  · exact absurd h (by simp)
  rename_i hv
  rw [not_not] at hv
  simp only [Except.ok.injEq] at h
  subst h
  refine ⟨h4, hv, ?_⟩
  obtain ⟨hlo, hhi⟩ := (validSignedImm19 _).mp hv
  have hoff := tmodFourZero off h4
  rw [lorShiftRight, lorShiftRight]
  have hrd : rd.toNat >>> 5 = 0 := by
    apply shiftRightZeroOfLt
    have : (2 : Nat) ^ 5 = 32 := by norm_num
    omega
  have hb5 : (0x58000000 : Nat) >>> 5 = 0x2C00000 := by decide
  rw [hrd, Nat.or_zero, hb5, shiftLeftRightSelf, Nat.and_distrib_right]
  have hbase : (0x2C00000 &&& 0x7FFFF : Nat) = 0 := by decide
  rw [hbase, Nat.zero_or, Nat.and_assoc, Nat.and_self, andMask19, signExt19u32 _ hlo hhi]
  omega

/-- `encodeBCond` success: the 19-bit quotient sits at bits 5..23 and the
condition value in the low 5 bits. -/
theorem encodeBCond_field (cond off : Int) (w : Nat) (h : encodeBCond cond off = .ok w) :
    off.tmod 4 = 0 ∧ validSignedImm (off.tdiv 4) 19 = true ∧
    0 ≤ cond ∧ cond ≤ 13 ∧
    signExt 19 ((w >>> 5) &&& 0x7FFFF) * 4 = off ∧
    ((w &&& 0x1F : Nat) : Int) = cond := by
  unfold encodeBCond at h
  split at h
  · exact absurd h (by simp)
  rename_i h4
  simp only [ne_eq, not_not] at h4
  split at h
  · exact absurd h (by simp)
  rename_i hv
  rw [not_not] at hv
  split at h
  · exact absurd h (by simp)
  rename_i hc
  simp only [Bool.or_eq_true, decide_eq_true_eq, not_or, not_lt] at hc
  obtain ⟨hc0, hc13⟩ := hc
  simp only [Except.ok.injEq] at h
  subst h
  obtain ⟨hlo, hhi⟩ := (validSignedImm19 _).mp hv
  have hoff := tmodFourZero off h4
  have hcondLt : u32 cond &&& 0x1F < 32 := by
    rw [andMask5]
    omega
  refine ⟨h4, hv, hc0, hc13, ?_, ?_⟩
  · rw [lorShiftRight, lorShiftRight]
    have hcz : (u32 cond &&& 0x1F) >>> 5 = 0 := by
      apply shiftRightZeroOfLt
      have : (2 : Nat) ^ 5 = 32 := by norm_num
      omega
    have hb5 : (0x54000000 : Nat) >>> 5 = 0x2A00000 := by decide
    rw [hcz, Nat.or_zero, hb5, shiftLeftRightSelf, Nat.and_distrib_right]
    have hbase : (0x2A00000 &&& 0x7FFFF : Nat) = 0 := by decide
    rw [hbase, Nat.zero_or, Nat.and_assoc, Nat.and_self, andMask19, signExt19u32 _ hlo hhi]
    omega
  · rw [Nat.and_distrib_right, Nat.and_distrib_right]
    have hbase : (0x54000000 &&& 0x1F : Nat) = 0 := by decide
    have hsh : (u32 (off.tdiv 4) &&& 0x7FFFF) <<< 5 &&& 0x1F = 0 := by
      rw [Nat.shiftLeft_eq, andMask5]
      omega
    rw [hbase, hsh, Nat.zero_or, Nat.zero_or, Nat.and_assoc, Nat.and_self, andMask5]
    unfold u32
    have e32 : (2 : Int) ^ 32 = 4294967296 := by norm_num
    rw [e32]
    omega

/-- `encodeMem` (with valid registers, as pass-2 operand decoding guarantees)
succeeds exactly on the signed 9-bit window, and places the immediate,
truncated to its low 9 bits, at bits 12..20. -/
theorem encodeMem_spec (base : Nat) (rt rn v : Int)
    (hrt : 0 ≤ rt ∧ rt ≤ 31) (hrn : 0 ≤ rn ∧ rn ≤ 31)
    (hb : (base >>> 12) &&& 0x1FF = 0) :
    (isOkE (encodeMem base rt rn v) = true ↔ (-256 ≤ v ∧ v ≤ 255)) ∧
    (∀ w, encodeMem base rt rn v = .ok w →
      (((w >>> 12) &&& 0x1FF : Nat) : Int) = v % 512) := by
  have hreq1 : requireReg rt = .ok () := by
    unfold requireReg validRegister
    have hb1 : (0 ≤ rt && rt ≤ 31) = true := by
      simp only [Bool.and_eq_true, decide_eq_true_eq]
      omega
    simp [hb1]
  have hreq2 : requireReg rn = .ok () := by
    unfold requireReg validRegister
    have hb2 : (0 ≤ rn && rn ≤ 31) = true := by
      simp only [Bool.and_eq_true, decide_eq_true_eq]
      omega
    simp [hb2]
  have hred : encodeMem base rt rn v =
      (if ¬ validSignedImm v 9 then .error "Immediate out of range for ldur/stur"
       else .ok (base ||| rt.toNat ||| (rn.toNat <<< 5) ||| ((u32 v &&& 0x1FF) <<< 12))) := by
    simp only [encodeMem, hreq1, hreq2]
  constructor
  · rw [hred]
    by_cases hv : validSignedImm v 9 = true
    · rw [if_neg (not_not_intro hv)]
      simp only [isOkE]
      rw [validSignedImm9] at hv
      norm_num at hv
      exact ⟨fun _ => ⟨hv.1, hv.2⟩, fun _ => trivial⟩
    · rw [if_pos hv]
      simp only [isOkE]
      rw [validSignedImm9] at hv
      norm_num at hv
      constructor
      · intro habs
        exact absurd habs (by decide)
      · intro hp
        exfalso
        omega
  · intro w h
    rw [hred] at h
    split at h
    · exact absurd h (by simp)
    rename_i hv
    rw [not_not, validSignedImm9] at hv
    simp only [Except.ok.injEq] at h
    subst h
    rw [lorShiftRight, lorShiftRight, lorShiftRight]
    have hrt12 : rt.toNat >>> 12 = 0 := by
      apply shiftRightZeroOfLt
      have he : (2 : Nat) ^ 12 = 4096 := by norm_num
      omega
    have hrn12 : (rn.toNat <<< 5) >>> 12 = 0 := by
      rw [Nat.shiftLeft_eq]
      apply shiftRightZeroOfLt
      have he : (2 : Nat) ^ 12 = 4096 := by norm_num
      have he5 : (2 : Nat) ^ 5 = 32 := by norm_num
      omega
    rw [hrt12, hrn12, Nat.or_zero, Nat.or_zero, shiftLeftRightSelf, Nat.and_distrib_right]
    rw [hb, Nat.zero_or, Nat.and_assoc, Nat.and_self, andMask9]
    unfold u32
    have e32 : (2 : Int) ^ 32 = 4294967296 := by norm_num
    rw [e32]
    omega

end Encoder

/-! ## SymbolTable lemmas -/

theorem lookupAssocAppendSelf (t : List (String × Nat)) (name : String) (addr : Nat)
    (h : lookupAssoc t name = none) : lookupAssoc (t ++ [(name, addr)]) name = some addr := by
  induction t with
  | nil => simp [lookupAssoc]
  | cons p rest ih =>
    obtain ⟨k, v⟩ := p
    unfold lookupAssoc at h ⊢
    by_cases hk : k = name
    · rw [if_pos hk] at h
      exact absurd h (by simp)
    · rw [if_neg hk] at h
      rw [List.cons_append]
      show (if k = name then some v else lookupAssoc (rest ++ [(name, addr)]) name) = some addr
      rw [if_neg hk]
      exact ih h

theorem lookupAssocAppendNe (t : List (String × Nat)) (name : String) (addr : Nat)
    (m : String) (h : m ≠ name) :
    lookupAssoc (t ++ [(name, addr)]) m = lookupAssoc t m := by
  induction t with
  | nil => simp [lookupAssoc, Ne.symm h]
  | cons p rest ih =>
    obtain ⟨k, v⟩ := p
    show lookupAssoc ((k, v) :: (rest ++ [(name, addr)])) m = lookupAssoc ((k, v) :: rest) m
    by_cases hk : k = m
    · rw [lookupAssoc, lookupAssoc, if_pos hk, if_pos hk]
    · rw [lookupAssoc, lookupAssoc, if_neg hk, if_neg hk]
      exact ih

/-- C8: `define` fails (with DuplicateLabel) exactly on an already-present
name; on success both the map and the order list gain the entry together (in
the `Except` model a failure returns no new table, so the caller's state is
untouched); `lookup` returns the defined address, is unaffected by later
distinct definitions, and fails (UndefinedLabel) exactly when the name is
absent; `order` extends in first-definition order. -/
theorem C8_symtab_spec (st : SymbolTable) (name : String) (addr : Nat) :
    ((st.define name addr = .error ("Duplicate label: " ++ name)) ↔ st.contains name = true) ∧
    (st.contains name = false →
      st.define name addr = .ok ⟨st.table ++ [(name, addr)], st.order ++ [name]⟩) ∧
    (∀ st2, st.define name addr = .ok st2 →
      st2.lookup name = .ok addr ∧
      (∀ m, m ≠ name → st2.lookup m = st.lookup m) ∧
      st2.order = st.order ++ [name] ∧ st2.table = st.table ++ [(name, addr)]) ∧
    (SymbolTable.empty.lookup name = .error ("Undefined label: " ++ name)) ∧
    (isOkE (st.lookup name) = true ↔ st.contains name = true) := by
  refine ⟨?_, ?_, ?_, rfl, ?_⟩
  · unfold SymbolTable.define
    by_cases hc : st.contains name = true
    · simp [hc]
    · simp [hc]
  · intro hc
    unfold SymbolTable.define
    simp [hc]
  · intro st2 hdef
    unfold SymbolTable.define at hdef
    split at hdef
    · exact absurd hdef (by simp)
    rename_i hc
    simp only [Except.ok.injEq] at hdef
    subst hdef
    have hnone : lookupAssoc st.table name = none := by
      unfold SymbolTable.contains at hc
      cases hl : lookupAssoc st.table name with
      | none => rfl
      | some v => rw [hl] at hc; simp at hc
    refine ⟨?_, ?_, rfl, rfl⟩
    · unfold SymbolTable.lookup
      simp [lookupAssocAppendSelf st.table name addr hnone]
    · intro m hm
      unfold SymbolTable.lookup
      rw [lookupAssocAppendNe st.table name addr m hm]
  · unfold SymbolTable.lookup SymbolTable.contains isOkE
    cases hl : lookupAssoc st.table name <;> simp

/-- C8 witness: a fresh define succeeds, updates both structures, and the
address is retrievable. -/
theorem C8_symtab_spec_witness :
    SymbolTable.empty.contains "a" = false ∧
    SymbolTable.empty.define "a" 7 = .ok ⟨[("a", 7)], ["a"]⟩ ∧
    SymbolTable.lookup ⟨[("a", 7)], ["a"]⟩ "a" = .ok 7 := by
  have h := C8_symtab_spec SymbolTable.empty "a" 7
  refine ⟨by decide, h.2.1 (by decide), ?_⟩
  exact (h.2.2.1 ⟨[("a", 7)], ["a"]⟩ (h.2.1 (by decide))).1

/-- C5: `xzr` and `sp` both decode to register 31, but pass-2 operand
decoding rejects an `sp` token (kind ID) at a `z` slot and an `xzr` token
(kind ZREG) at an `r` slot, each with a fatal error. -/
theorem C5_sp_xzr_slots (st : SymbolTable) (pc : Nat) :
    Assembler.patStep st pc 'z' ⟨TokenType.ID, "sp"⟩ = .error "Expected register or xzr" ∧
    Assembler.patStep st pc 'r' ⟨TokenType.ZREG, "xzr"⟩ = .error "Expected register or sp" ∧
    Encoder.readReg "sp" = .ok 31 ∧ Encoder.readReg "xzr" = .ok 31 :=
  ⟨rfl, rfl, rfl, rfl⟩

/-- C6 counterexample: `readReg "x05"` succeeds with 5 although `"x05"` is
not `x` followed by the decimal numeral of 5 (nor `xzr`/`sp`), so `readReg`
does not fail on every string outside the claimed shapes. -/
theorem C6_counterexample :
    Encoder.readReg "x05" = .ok 5 ∧ "x05" ≠ "x" ++ toString (5 : Nat) ∧
    "x05" ≠ "xzr" ∧ "x05" ≠ "sp" :=
  ⟨rfl, by decide, by decide, by decide⟩

/-- C6 amended: `readReg` yields 31 on `xzr`/`sp` and N on `x` ++ numeral N
for N ≤ 30; any other success requires the stoi-style parse of the tail
(leading whitespace/sign, leading zeros and trailing junk tolerated) to give
a value in 0..30. -/
theorem C6_readReg_amended :
    Encoder.readReg "xzr" = .ok 31 ∧ Encoder.readReg "sp" = .ok 31 ∧
    (∀ n : Nat, n ≤ 30 → Encoder.readReg ("x" ++ toString n) = .ok (n : Int)) ∧
    (∀ s v, Encoder.readReg s = .ok v →
      s = "xzr" ∨ s = "sp" ∨
      (headCharD s = 'x' ∧ stoiDec (s.drop 1) = .ok v ∧ 0 ≤ v ∧ v ≤ 30)) := by
  refine ⟨rfl, rfl, ?_, ?_⟩
  · intro n hn
    interval_cases n <;> rfl
  · intro s v h
    unfold Encoder.readReg at h
    split at h
    · rename_i h1
      simp only [Bool.or_eq_true, decide_eq_true_eq] at h1
      cases h1 with
      | inl hs => exact Or.inl hs
      | inr hs => exact Or.inr (Or.inl hs)
    split at h
    · exact absurd h (by simp)
    rename_i h1 h2
    simp only [ne_eq, not_not] at h2
    split at h
    · exact absurd h (by simp)
    rename_i v0 hst
    split at h
    · exact absurd h (by simp)
    rename_i hrange
    simp only [Bool.or_eq_true, decide_eq_true_eq, not_or, not_lt] at hrange
    simp only [Except.ok.injEq] at h
    subst h
    exact Or.inr (Or.inr ⟨h2, hst, hrange.1, hrange.2⟩)

/-- C6 witness: the amended theorem at `n = 7`. -/
theorem C6_readReg_amended_witness : Encoder.readReg "x7" = .ok 7 :=
  C6_readReg_amended.2.2.1 7 (by norm_num)

/-- C4: with valid register operands, `ldur`/`stur` encoding succeeds exactly
on the signed 9-bit window `[-256, 255]`; `-257` and `256` fail; the
immediate is emitted as its low 9 bits (two's-complement truncation,
`v % 512 ≥ 0`). -/
theorem C4_mem_imm_window (rt rn v : Int) (hrt : 0 ≤ rt ∧ rt ≤ 31) (hrn : 0 ≤ rn ∧ rn ≤ 31) :
    (isOkE (Encoder.encode "ldur" rt rn v) = true ↔ (-256 ≤ v ∧ v ≤ 255)) ∧
    (isOkE (Encoder.encode "stur" rt rn v) = true ↔ (-256 ≤ v ∧ v ≤ 255)) ∧
    (∀ w, Encoder.encode "ldur" rt rn v = .ok w →
      (((w >>> 12) &&& 0x1FF : Nat) : Int) = v % 512) ∧
    (∀ w, Encoder.encode "stur" rt rn v = .ok w →
      (((w >>> 12) &&& 0x1FF : Nat) : Int) = v % 512) ∧
    isOkE (Encoder.encode "ldur" 0 0 (-257)) = false ∧
    isOkE (Encoder.encode "ldur" 0 0 256) = false ∧
    isOkE (Encoder.encode "stur" 0 0 (-257)) = false ∧
    isOkE (Encoder.encode "stur" 0 0 256) = false := by
  have hl : ∀ a b c : Int, Encoder.encode "ldur" a b c = Encoder.encodeMem 0xF8400000 a b c :=
    fun a b c => rfl
  have hs : ∀ a b c : Int, Encoder.encode "stur" a b c = Encoder.encodeMem 0xF8000000 a b c :=
    fun a b c => rfl
  have h1 := Encoder.encodeMem_spec 0xF8400000 rt rn v hrt hrn (by decide)
  have h2 := Encoder.encodeMem_spec 0xF8000000 rt rn v hrt hrn (by decide)
  refine ⟨by rw [hl]; exact h1.1, by rw [hs]; exact h2.1, ?_, ?_,
    by decide, by decide, by decide, by decide⟩
  · intro w hw
    rw [hl] at hw
    exact h1.2 w hw
  · intro w hw
    rw [hs] at hw
    exact h2.2 w hw

/-- C4 witness: `ldur x1, [x2, -1]` is accepted and carries field value 511. -/
theorem C4_mem_imm_window_witness :
    isOkE (Encoder.encode "ldur" 1 2 (-1)) = true :=
  (C4_mem_imm_window 1 2 (-1) (by norm_num) (by norm_num)).1.mpr (by norm_num)

/-- C7 counterexample: the operand `010` (token kind INT) is parsed with
base auto-detection as octal, so `.8byte 010` emits the datum 8, while the
claimed decimal reading would emit 10. -/
theorem C7_counterexample :
    Assembler.pass2Aux SymbolTable.empty 0 [[⟨TokenType.DOTID, ".8byte"⟩, ⟨TokenType.INT, "010"⟩]]
      = .ok [8, 0, 0, 0, 0, 0, 0, 0] ∧
    Encoder.emit64le 10 = [10, 0, 0, 0, 0, 0, 0, 0] ∧
    (8 : Nat) ≠ 10 :=
  ⟨rfl, rfl, by decide⟩

/-- C7 amended: a `.8byte` statement with an INT/HEXINT operand emits the
64-bit little-endian image of `strtoull`-with-base-0 of the lexeme: `0x`/`0X`
selects hexadecimal, a remaining leading `0` selects octal (so `010` denotes
eight), otherwise decimal. -/
theorem C7_data8_amended (st : SymbolTable) (pc : Nat) (ty : TokenType) (lex : String) (v : Nat)
    (hty : ty = TokenType.INT ∨ ty = TokenType.HEXINT)
    (hv : stoullB0 lex = .ok v) :
    Assembler.pass2Aux st pc [[⟨TokenType.DOTID, ".8byte"⟩, ⟨ty, lex⟩]]
      = .ok (Encoder.emit64le v) ∧
    stoullB0 "010" = .ok 8 ∧ stoullB0 "10" = .ok 10 ∧
    stoullB0 "0x10" = .ok 16 ∧ stoullB0 "0X10" = .ok 16 := by
  refine ⟨?_, rfl, rfl, rfl, rfl⟩
  have hdv : Assembler.data8Value st ⟨ty, lex⟩ = .ok v := by
    unfold Assembler.data8Value
    cases hty with
    | inl hI => subst hI; simpa using hv
    | inr hH => subst hH; simpa using hv
  unfold Assembler.pass2Aux
  simp only [Assembler.isLabelOnly, Assembler.isData8, hdv]
  simp [Assembler.pass2Aux, Except.map]

/-- C7 witness: the amended theorem at the INT operand `010` (value 8). -/
theorem C7_data8_amended_witness :
    Assembler.pass2Aux SymbolTable.empty 0 [[⟨TokenType.DOTID, ".8byte"⟩, ⟨TokenType.INT, "010"⟩]]
      = .ok (Encoder.emit64le 8) :=
  (C7_data8_amended SymbolTable.empty 0 TokenType.INT "010" 8 (Or.inl rfl) rfl).1

/-- C1 counterexample: assembling the pseudocode `x1 = x2 + x3` produces the
bytes 41 60 23 8B, not the claimed 41 00 23 8B (the claimed word 0x8B230041
drops the extended-register option bits 0x6000 of the add base 0x8B206000). -/
theorem C1_counterexample :
    (HighLevel.parse ["x1 = x2 + x3"]).bind Assembler.assembleTokens
      = .ok [0x41, 0x60, 0x23, 0x8B] ∧
    [0x41, 0x60, 0x23, 0x8B] ≠ [(0x41 : Nat), 0x00, 0x23, 0x8B] :=
  ⟨rfl, by decide⟩

/-- C1 amended: `x1 = x2 + x3` lowers to `add x1, x2, x3`, which encodes
(base 0x8B206000) to the word 0x8B236041, emitted little-endian as the bytes
41 60 23 8B. -/
theorem C1_single_add :
    Encoder.encode "add" 1 2 3 = .ok 0x8B236041 ∧
    Encoder.emit32le 0x8B236041 = [0x41, 0x60, 0x23, 0x8B] ∧
    HighLevel.parse ["x1 = x2 + x3"] = .ok
      [⟨TokenType.ID, "add"⟩, ⟨TokenType.REG, "x1"⟩, commaTok, ⟨TokenType.REG, "x2"⟩,
       commaTok, ⟨TokenType.REG, "x3"⟩, nlTok] ∧
    (HighLevel.parse ["x1 = x2 + x3"]).bind Assembler.assembleTokens
      = .ok [0x41, 0x60, 0x23, 0x8B] :=
  ⟨rfl, rfl, rfl, rfl⟩

/-! ## Pass-1 / pass-2 PC agreement (C3 infrastructure) -/

theorem defineLookupSelf (st st2 : SymbolTable) (name : String) (addr : Nat)
    (h : st.define name addr = .ok st2) : st2.lookup name = .ok addr := by
  unfold SymbolTable.define at h
  split at h
  · exact absurd h (by simp)
  rename_i hc
  simp only [Except.ok.injEq] at h
  subst h
  have hnone : lookupAssoc st.table name = none := by
    unfold SymbolTable.contains at hc
    cases hl : lookupAssoc st.table name with
    | none => rfl
    | some v => rw [hl] at hc; simp at hc
  unfold SymbolTable.lookup
  simp [lookupAssocAppendSelf st.table name addr hnone]

theorem definePreservesLookup (st st2 : SymbolTable) (name : String) (addr : Nat)
    (h : st.define name addr = .ok st2) (n : String) (a : Nat) (hl : st.lookup n = .ok a) :
    st2.lookup n = .ok a := by
  unfold SymbolTable.define at h
  split at h
  · exact absurd h (by simp)
  rename_i hc
  simp only [Except.ok.injEq] at h
  subst h
  by_cases hn : n = name
  · subst hn
    exfalso
    apply hc
    unfold SymbolTable.contains
    unfold SymbolTable.lookup at hl
    cases hla : lookupAssoc st.table n with
    | none => rw [hla] at hl; exact absurd hl (by simp)
    | some v => simp [hla]
  · unfold SymbolTable.lookup at hl ⊢
    rw [lookupAssocAppendNe st.table name addr n hn]
    exact hl

theorem pass1PreservesLookup :
    ∀ (ls : List (List Token)) (st0 : SymbolTable) (pc : Nat) (st : SymbolTable)
      (n : String) (a : Nat),
      Assembler.pass1Aux st0 pc ls = .ok st → st0.lookup n = .ok a → st.lookup n = .ok a := by
  intro ls
  induction ls with
  | nil =>
    intro st0 pc st n a h hl
    unfold Assembler.pass1Aux at h
    simp only [Except.ok.injEq] at h
    subst h
    exact hl
  | cons l rest ih =>
    intro st0 pc st n a h hl
    unfold Assembler.pass1Aux at h
    by_cases hlab : Assembler.isLabelOnly l = true
    · rw [if_pos hlab] at h
      split at h
      · exact absurd h (by simp)
      rename_i st2 hdef
      exact ih st2 pc st n a h (definePreservesLookup st0 st2 _ pc hdef n a hl)
    · rw [if_neg hlab] at h
      by_cases hd8 : Assembler.isData8 l = true
      · rw [if_pos hd8] at h
        exact ih st0 _ st n a h hl
      · rw [if_neg hd8] at h
        exact ih st0 _ st n a h hl

theorem pass1LookupAux :
    ∀ (ls : List (List Token)) (st0 : SymbolTable) (pc : Nat) (st : SymbolTable),
      Assembler.pass1Aux st0 pc ls = .ok st → pc < M64 →
      ∀ i (hi : i < ls.length) (name : String),
        labelLineName (ls.get ⟨i, hi⟩) = some name →
        st.lookup name = .ok (pcFold pc (ls.take i)) := by
  intro ls
  induction ls with
  | nil =>
    intro st0 pc st h hpc i hi
    exact absurd hi (by simp)
  | cons l rest ih =>
    intro st0 pc st h hpc i hi name hname
    unfold Assembler.pass1Aux at h
    by_cases hlab : Assembler.isLabelOnly l = true
    · rw [if_pos hlab] at h
      split at h
      · exact absurd h (by simp)
      rename_i st2 hdef
      have hadv : (pc + lineAdvance l) % M64 = pc := by
        unfold lineAdvance
        rw [if_pos hlab, Nat.add_zero]
        exact Nat.mod_eq_of_lt hpc
      cases i with
      | zero =>
        simp only [List.get] at hname
        unfold labelLineName at hname
        rw [if_pos hlab] at hname
        simp only [Option.some.injEq] at hname
        subst hname
        simp only [List.take_zero]
        show st.lookup _ = .ok pc
        exact pass1PreservesLookup rest st2 pc st _ pc h (defineLookupSelf st0 st2 _ pc hdef)
      | succ j =>
        have hj : j < rest.length := by simpa using hi
        have := ih st2 pc st h hpc j hj name (by simpa using hname)
        simp only [List.take_succ_cons]
        show st.lookup name = .ok (pcFold ((pc + lineAdvance l) % M64) (rest.take j))
        rw [hadv]
        exact this
    · rw [if_neg hlab] at h
      have hname0 : ∀ (hz : (0 : Nat) < (l :: rest).length),
          labelLineName ((l :: rest).get ⟨0, hz⟩) = some name → False := by
        intro hz hn
        simp only [List.get] at hn
        unfold labelLineName at hn
        rw [if_neg hlab] at hn
        exact absurd hn (by simp)
      by_cases hd8 : Assembler.isData8 l = true
      · rw [if_pos hd8] at h
        have hadv : lineAdvance l = 8 := by
          unfold lineAdvance
          rw [if_neg hlab, if_pos hd8]
        cases i with
        | zero => exact absurd hname (by intro hn; exact hname0 hi hn)
        | succ j =>
          have hj : j < rest.length := by simpa using hi
          have := ih st0 ((pc + 8) % M64) st h (Nat.mod_lt _ (by norm_num [M64])) j hj name
            (by simpa using hname)
          simp only [List.take_succ_cons]
          show st.lookup name = .ok (pcFold ((pc + lineAdvance l) % M64) (rest.take j))
          rw [hadv]
          exact this
      · rw [if_neg hd8] at h
        have hadv : lineAdvance l = 4 := by
          unfold lineAdvance
          rw [if_neg hlab, if_neg hd8]
        cases i with
        | zero => exact absurd hname (by intro hn; exact hname0 hi hn)
        | succ j =>
          have hj : j < rest.length := by simpa using hi
          have := ih st0 ((pc + 4) % M64) st h (Nat.mod_lt _ (by norm_num [M64])) j hj name
            (by simpa using hname)
          simp only [List.take_succ_cons]
          show st.lookup name = .ok (pcFold ((pc + lineAdvance l) % M64) (rest.take j))
          rw [hadv]
          exact this

theorem pass2Suffix :
    ∀ (ls : List (List Token)) (st : SymbolTable) (pc : Nat) (out : List Nat),
      Assembler.pass2Aux st pc ls = .ok out → (∀ l, l ∈ ls → l ≠ []) → pc < M64 →
      ∀ i, i ≤ ls.length →
        isOkE (Assembler.pass2Aux st (pcFold pc (ls.take i)) (ls.drop i)) = true := by
  intro ls
  induction ls with
  | nil =>
    intro st pc out h hne hpc i hi
    have hi0 : i = 0 := by simpa using hi
    subst hi0
    simp only [List.take_nil, List.drop_nil, pcFold]
    rw [h]
    rfl
  | cons l rest ih =>
    intro st pc out h hne hpc i hi
    cases i with
    | zero =>
      simp only [List.take_zero, List.drop_zero, pcFold]
      rw [h]
      rfl
    | succ j =>
      have hj : j ≤ rest.length := by simpa using hi
      have hlne : l ≠ [] := hne l (by simp)
      have hrne : ∀ l2, l2 ∈ rest → l2 ≠ [] := fun l2 hm => hne l2 (by simp [hm])
      simp only [List.take_succ_cons, List.drop_succ_cons, pcFold]
      unfold Assembler.pass2Aux at h
      rw [if_neg hlne] at h
      by_cases hlab : Assembler.isLabelOnly l = true
      · rw [if_pos hlab] at h
        have hadv : (pc + lineAdvance l) % M64 = pc := by
          unfold lineAdvance
          rw [if_pos hlab, Nat.add_zero]
          exact Nat.mod_eq_of_lt hpc
        rw [hadv]
        exact ih st pc out h hrne hpc j hj
      · rw [if_neg hlab] at h
        by_cases hd8 : Assembler.isData8 l = true
        · rw [if_pos hd8] at h
          have hadv : (pc + lineAdvance l) % M64 = (pc + 8) % M64 := by
            unfold lineAdvance
            rw [if_neg hlab, if_pos hd8]
          rw [hadv]
          split at h
          · exact absurd h (by simp)
          · split at h
            · exact absurd h (by simp)
            rename_i hval
            cases hrec : Assembler.pass2Aux st ((pc + 8) % M64) rest with
            | error e =>
              rw [hrec] at h
              exact absurd h (by simp [Except.map])
            | ok out2 =>
              exact ih st ((pc + 8) % M64) out2 hrec hrne (Nat.mod_lt _ (by norm_num [M64])) j hj
          · exact absurd h (by simp)
        · rw [if_neg hd8] at h
          have hadv : (pc + lineAdvance l) % M64 = (pc + 4) % M64 := by
            unfold lineAdvance
            rw [if_neg hlab, if_neg hd8]
          rw [hadv]
          split at h
          · exact absurd h (by simp)
          rename_i w hw
          cases hrec : Assembler.pass2Aux st ((pc + 4) % M64) rest with
          | error e =>
            rw [hrec] at h
            exact absurd h (by simp [Except.map])
          | ok out2 =>
            exact ih st ((pc + 4) % M64) out2 hrec hrne (Nat.mod_lt _ (by norm_num [M64])) j hj

theorem groupLinesAuxNoEmpty :
    ∀ (ts : List Token) (cur : List Token) (l : List Token),
      l ∈ Assembler.groupLinesAux ts cur → l ≠ [] := by
  intro ts
  induction ts with
  | nil =>
    intro cur l hm
    unfold Assembler.groupLinesAux at hm
    by_cases hc : cur = []
    · rw [if_pos hc] at hm
      exact absurd hm (by simp)
    · rw [if_neg hc] at hm
      simp only [List.mem_singleton] at hm
      subst hm
      simpa using hc
  | cons t rest ih =>
    intro cur l hm
    unfold Assembler.groupLinesAux at hm
    by_cases hnl : t.type = TokenType.NEWLINE
    · rw [if_pos hnl] at hm
      by_cases hc : cur = []
      · rw [if_pos hc] at hm
        exact ih [] l hm
      · rw [if_neg hc] at hm
        simp only [List.mem_cons] at hm
        cases hm with
        | inl he =>
          subst he
          simpa using hc
        | inr hmm => exact ih [] l hmm
    · rw [if_neg hnl] at hm
      exact ih (t :: cur) l hm

theorem groupLinesNoEmpty (tokens : List Token) :
    ∀ l, l ∈ Assembler.groupLines tokens → l ≠ [] := by
  intro l hm
  exact groupLinesAuxNoEmpty tokens [] l hm

/-- C3: on a successfully assembled program, both passes advance the PC by
the same per-statement increments (8 for `.8byte`, 4 for instructions, 0 for
label-only lines), so every defined label's `lookup` value equals the common
PC fold at its position, and pass 2 resumes from exactly that PC there. -/
theorem C3_pass_pc_agree (tokens : List Token) (st : SymbolTable) (bytes : List Nat)
    (h1 : Assembler.pass1 (Assembler.groupLines tokens) = .ok st)
    (h2 : Assembler.pass2Aux st 0 (Assembler.groupLines tokens) = .ok bytes) :
    ∀ i (hi : i < (Assembler.groupLines tokens).length) (name : String),
      labelLineName ((Assembler.groupLines tokens).get ⟨i, hi⟩) = some name →
      st.lookup name = .ok (pcFold 0 ((Assembler.groupLines tokens).take i)) ∧
      isOkE (Assembler.pass2Aux st (pcFold 0 ((Assembler.groupLines tokens).take i))
        ((Assembler.groupLines tokens).drop i)) = true := by
  intro i hi name hname
  constructor
  · exact pass1LookupAux (Assembler.groupLines tokens) SymbolTable.empty 0 st h1
      (by norm_num [M64]) i hi name hname
  · exact pass2Suffix (Assembler.groupLines tokens) st 0 bytes h2
      (groupLinesNoEmpty tokens) (by norm_num [M64]) i (Nat.le_of_lt hi)

/-- C3 witness: the label+add+branch program, at the label's position 0. -/
theorem C3_pass_pc_agree_witness :
    SymbolTable.lookup ⟨[("loop", 0)], ["loop"]⟩ "loop"
      = .ok (pcFold 0 ((Assembler.groupLines
          [⟨TokenType.LABEL, "loop:"⟩, nlTok,
           ⟨TokenType.ID, "add"⟩, ⟨TokenType.REG, "x1"⟩, commaTok, ⟨TokenType.REG, "x1"⟩,
           commaTok, ⟨TokenType.REG, "x3"⟩, nlTok,
           ⟨TokenType.ID, "b"⟩, ⟨TokenType.ID, "loop"⟩, nlTok]).take 0)) ∧
    isOkE (Assembler.pass2Aux ⟨[("loop", 0)], ["loop"]⟩
      (pcFold 0 ((Assembler.groupLines
          [⟨TokenType.LABEL, "loop:"⟩, nlTok,
           ⟨TokenType.ID, "add"⟩, ⟨TokenType.REG, "x1"⟩, commaTok, ⟨TokenType.REG, "x1"⟩,
           commaTok, ⟨TokenType.REG, "x3"⟩, nlTok,
           ⟨TokenType.ID, "b"⟩, ⟨TokenType.ID, "loop"⟩, nlTok]).take 0))
      ((Assembler.groupLines
          [⟨TokenType.LABEL, "loop:"⟩, nlTok,
           ⟨TokenType.ID, "add"⟩, ⟨TokenType.REG, "x1"⟩, commaTok, ⟨TokenType.REG, "x1"⟩,
           commaTok, ⟨TokenType.REG, "x3"⟩, nlTok,
           ⟨TokenType.ID, "b"⟩, ⟨TokenType.ID, "loop"⟩, nlTok]).drop 0)) = true :=
  C3_pass_pc_agree
    [⟨TokenType.LABEL, "loop:"⟩, nlTok,
     ⟨TokenType.ID, "add"⟩, ⟨TokenType.REG, "x1"⟩, commaTok, ⟨TokenType.REG, "x1"⟩,
     commaTok, ⟨TokenType.REG, "x3"⟩, nlTok,
     ⟨TokenType.ID, "b"⟩, ⟨TokenType.ID, "loop"⟩, nlTok]
    ⟨[("loop", 0)], ["loop"]⟩
    [0x21, 0x60, 0x23, 0x8B, 0xFF, 0xFF, 0xFF, 0x17]
    rfl rfl 0 (by decide) "loop" rfl

/-! ## PC-relative operands (C2 / C9 infrastructure) -/

theorem toI32EqSelf (d : Int) (h1 : -(2 ^ 31) ≤ d) (h2 : d ≤ 2 ^ 31 - 1) : toI32 d = d := by
  unfold toI32
  have e32 : (2 : Int) ^ 32 = 4294967296 := by norm_num
  have e31 : (2 : Int) ^ 31 = 2147483648 := by norm_num
  rw [e32, e31]
  rw [e31] at h1 h2
  omega

theorem patStepJLabel (st : SymbolTable) (pc : Nat) (lbl : String) (addr : Nat)
    (hlook : st.lookup lbl = .ok addr) :
    Assembler.patStep st pc 'j' ⟨TokenType.ID, lbl⟩
      = .ok [toI32 (toI64 addr - toI64 pc)] := by
  unfold Assembler.patStep
  simp [hlook, Except.map]

theorem instrWordBLabel (st : SymbolTable) (pc : Nat) (lbl : String) (addr : Nat)
    (hlook : st.lookup lbl = .ok addr) :
    Assembler.instrWord st pc [⟨TokenType.ID, "b"⟩, ⟨TokenType.ID, lbl⟩]
      = Encoder.encodeBranch (toI32 (toI64 addr - toI64 pc)) := by
  have hstep := patStepJLabel st pc lbl addr hlook
  unfold Assembler.instrWord
  simp [Assembler.patterns, Assembler.decodeOps, hstep, Assembler.argD, Encoder.encode]

theorem instrWordBCondLabel (st : SymbolTable) (pc : Nat) (lbl : String) (addr : Nat)
    (cond : String) (cv : Int)
    (hlook : st.lookup lbl = .ok addr) (hcond : Assembler.condCodes cond = some cv) :
    Assembler.instrWord st pc
        [⟨TokenType.ID, "b"⟩, ⟨TokenType.DOTID, cond⟩, ⟨TokenType.ID, lbl⟩]
      = Encoder.encodeBCond cv (toI32 (toI64 addr - toI64 pc)) := by
  have hstep := patStepJLabel st pc lbl addr hlook
  unfold Assembler.instrWord
  simp [Assembler.patterns, Assembler.decodeOps, hstep, hcond, Assembler.argD, Encoder.encode]

theorem instrWordLdrLabel (st : SymbolTable) (pc : Nat) (lbl : String) (addr : Nat)
    (rd : String) (rt : Int)
    (hlook : st.lookup lbl = .ok addr) (hrt : Encoder.readReg rd = .ok rt) :
    Assembler.instrWord st pc
        [⟨TokenType.ID, "ldr"⟩, ⟨TokenType.REG, rd⟩, commaTok, ⟨TokenType.ID, lbl⟩]
      = Encoder.encodeLdr rt (toI32 (toI64 addr - toI64 pc)) := by
  unfold Assembler.instrWord
  simp [Assembler.patterns, Assembler.decodeOps, Assembler.patStep, hrt, hlook,
    Assembler.argD, Encoder.encode, commaTok, Except.map]

/-- C2 amended: for `b L`, `b.cond L` and `ldr xd, L` with a defined label,
whenever `lookup(L) − PC` (computed in signed 64-bit arithmetic) fits the
signed 32-bit range, the immediate field of the word pass 2 emits,
sign-extended from its field width and multiplied by 4, equals
`lookup(L) − PC`. (Differences beyond the signed 32-bit range are first
truncated by the `static_cast<int>`, see the counterexample.) -/
theorem C2_branch_offsets (st : SymbolTable) (pc : Nat) (lbl : String) (addr : Nat)
    (cond : String) (cv : Int) (rd : String) (rt : Int)
    (hlook : st.lookup lbl = .ok addr)
    (hcond : Assembler.condCodes cond = some cv)
    (hrt : Encoder.readReg rd = .ok rt)
    (hfit : -(2 ^ 31) ≤ toI64 addr - toI64 pc ∧ toI64 addr - toI64 pc ≤ 2 ^ 31 - 1) :
    (∀ w, Assembler.instrWord st pc [⟨TokenType.ID, "b"⟩, ⟨TokenType.ID, lbl⟩] = .ok w →
      signExt 26 (w &&& 0x3FFFFFF) * 4 = toI64 addr - toI64 pc) ∧
    (∀ w, Assembler.instrWord st pc
        [⟨TokenType.ID, "b"⟩, ⟨TokenType.DOTID, cond⟩, ⟨TokenType.ID, lbl⟩] = .ok w →
      signExt 19 ((w >>> 5) &&& 0x7FFFF) * 4 = toI64 addr - toI64 pc) ∧
    (∀ w, Assembler.instrWord st pc
        [⟨TokenType.ID, "ldr"⟩, ⟨TokenType.REG, rd⟩, commaTok, ⟨TokenType.ID, lbl⟩] = .ok w →
      signExt 19 ((w >>> 5) &&& 0x7FFFF) * 4 = toI64 addr - toI64 pc) := by
  have hself := toI32EqSelf (toI64 addr - toI64 pc) hfit.1 hfit.2
  refine ⟨?_, ?_, ?_⟩
  · intro w hw
    rw [instrWordBLabel st pc lbl addr hlook, hself] at hw
    exact (Encoder.encodeBranch_field _ w hw).2.2
  · intro w hw
    rw [instrWordBCondLabel st pc lbl addr cond cv hlook hcond, hself] at hw
    exact (Encoder.encodeBCond_field cv _ w hw).2.2.2.2.1
  · intro w hw
    rw [instrWordLdrLabel st pc lbl addr rd rt hlook hrt, hself] at hw
    exact (Encoder.encodeLdr_field rt _ w hw).2.2

/-- C2 witness: `b L` with `L` at address 8 and PC 0 encodes 0x14000002,
whose imm26, sign-extended and ×4, is 8. -/
theorem C2_branch_offsets_witness :
    signExt 26 ((0x14000002 : Nat) &&& 0x3FFFFFF) * 4 = toI64 8 - toI64 0 :=
  (C2_branch_offsets ⟨[("L", 8)], ["L"]⟩ 0 "L" 8 ".eq" 0 "x1" 1 rfl rfl rfl
    (by unfold toI64; norm_num)).1 0x14000002 rfl

theorem pass1ConsD8 (st0 : SymbolTable) (pc : Nat) (ls : List (List Token)) :
    Assembler.pass1Aux st0 pc (d8ZeroLine :: ls)
      = Assembler.pass1Aux st0 ((pc + 8) % M64) ls := rfl

theorem pass2ConsD8 (st : SymbolTable) (pc : Nat) (ls : List (List Token)) :
    Assembler.pass2Aux st pc (d8ZeroLine :: ls)
      = (Assembler.pass2Aux st ((pc + 8) % M64) ls).map
          (fun bs => Encoder.emit64le 0 ++ bs) := rfl

theorem pass1ReplicateD8 :
    ∀ (n : Nat) (st0 : SymbolTable) (pc : Nat) (rest : List (List Token)), pc < M64 →
      Assembler.pass1Aux st0 pc (List.replicate n d8ZeroLine ++ rest)
        = Assembler.pass1Aux st0 ((pc + 8 * n) % M64) rest := by
  intro n
  induction n with
  | zero =>
    intro st0 pc rest hpc
    simp only [List.replicate, List.nil_append, Nat.mul_zero, Nat.add_zero]
    rw [Nat.mod_eq_of_lt hpc]
  | succ m ih =>
    intro st0 pc rest hpc
    rw [List.replicate_succ, List.cons_append, pass1ConsD8]
    rw [ih st0 ((pc + 8) % M64) rest (Nat.mod_lt _ (by norm_num [M64]))]
    have hcm : ((pc + 8) % M64 + 8 * m) % M64 = (pc + 8 * (m + 1)) % M64 := by
      have hM : M64 = 18446744073709551616 := by norm_num [M64]
      rw [hM]
      omega
    rw [hcm]

theorem exceptMapMap {α β γ : Type} (f : β → γ) (g : α → β) (x : Except String α) :
    Except.map f (Except.map g x) = Except.map (fun a => f (g a)) x := by
  cases x <;> rfl

theorem pass2ReplicateD8 :
    ∀ (n : Nat) (st : SymbolTable) (pc : Nat) (rest : List (List Token)), pc < M64 →
      Assembler.pass2Aux st pc (List.replicate n d8ZeroLine ++ rest)
        = (Assembler.pass2Aux st ((pc + 8 * n) % M64) rest).map
            (fun bs => List.replicate (8 * n) 0 ++ bs) := by
  intro n
  induction n with
  | zero =>
    intro st pc rest hpc
    simp only [List.replicate, List.nil_append, Nat.mul_zero, Nat.add_zero]
    rw [Nat.mod_eq_of_lt hpc]
    cases Assembler.pass2Aux st pc rest <;> rfl
  | succ m ih =>
    intro st pc rest hpc
    rw [List.replicate_succ, List.cons_append, pass2ConsD8]
    rw [ih st ((pc + 8) % M64) rest (Nat.mod_lt _ (by norm_num [M64]))]
    rw [exceptMapMap]
    have hcm : ((pc + 8) % M64 + 8 * m) % M64 = (pc + 8 * (m + 1)) % M64 := by
      have hM : M64 = 18446744073709551616 := by norm_num [M64]
      rw [hM]
      omega
    rw [hcm]
    have hfun : (fun a : List Nat => Encoder.emit64le 0 ++ (List.replicate (8 * m) 0 ++ a))
        = (fun bs : List Nat => List.replicate (8 * (m + 1)) 0 ++ bs) := by
      funext bs
      rw [show Encoder.emit64le 0 = List.replicate 8 0 from rfl, ← List.append_assoc,
        ← List.replicate_add]
      congr 2
      omega
    rw [hfun]

theorem pcFoldReplicateD8 :
    ∀ (n : Nat) (pc : Nat), pc < M64 →
      pcFold pc (List.replicate n d8ZeroLine) = (pc + 8 * n) % M64 := by
  intro n
  induction n with
  | zero =>
    intro pc hpc
    simp only [List.replicate, pcFold, Nat.mul_zero, Nat.add_zero]
    exact (Nat.mod_eq_of_lt hpc).symm
  | succ m ih =>
    intro pc hpc
    simp only [List.replicate, pcFold]
    rw [show lineAdvance d8ZeroLine = 8 from by decide]
    rw [ih ((pc + 8) % M64) (Nat.mod_lt _ (by norm_num [M64]))]
    have hM : M64 = 18446744073709551616 := by norm_num [M64]
    rw [hM]
    omega

theorem groupLinesAuxCons (t : Token) (ts cur : List Token) :
    Assembler.groupLinesAux (t :: ts) cur
      = if t.type = TokenType.NEWLINE then
          (if cur = [] then Assembler.groupLinesAux ts []
           else cur.reverse :: Assembler.groupLinesAux ts [])
        else Assembler.groupLinesAux ts (t :: cur) := rfl

theorem groupLinesAuxNoNl :
    ∀ (l : List Token) (ts cur : List Token),
      (∀ t ∈ l, t.type ≠ TokenType.NEWLINE) →
      Assembler.groupLinesAux (l ++ ts) cur = Assembler.groupLinesAux ts (l.reverse ++ cur) := by
  intro l
  induction l with
  | nil =>
    intro ts cur hnl
    simp
  | cons t rest ih =>
    intro ts cur hnl
    rw [List.cons_append, groupLinesAuxCons, if_neg (hnl t (by simp))]
    rw [ih ts (t :: cur) (fun u hu => hnl u (by simp [hu]))]
    simp

theorem groupLinesOfLines :
    ∀ (lines : List (List Token)),
      (∀ l, l ∈ lines → l ≠ [] ∧ (∀ t, t ∈ l → t.type ≠ TokenType.NEWLINE)) →
      Assembler.groupLines ((lines.map (fun l => l ++ [nlTok])).flatten) = lines := by
  intro lines
  induction lines with
  | nil =>
    intro hok
    rfl
  | cons l rest ih =>
    intro hok
    obtain ⟨hne, hnl⟩ := hok l (by simp)
    unfold Assembler.groupLines
    rw [List.map_cons, List.flatten_cons, List.append_assoc, List.singleton_append,
      groupLinesAuxNoNl l _ [] hnl, groupLinesAuxCons]
    rw [if_pos (by rfl : nlTok.type = TokenType.NEWLINE)]
    rw [if_neg (by simpa using hne), List.append_nil, List.reverse_reverse]
    exact congrArg (l :: ·) (ih (fun l2 hm => hok l2 (by simp [hm])))

theorem hugeToksGroup : Assembler.groupLines hugeToks = hugeProg := by
  apply groupLinesOfLines
  intro l hm
  unfold hugeProg at hm
  simp only [List.mem_cons, List.mem_append, List.mem_replicate, List.not_mem_nil,
    or_false] at hm
  rcases hm with h | ⟨⟨_, h⟩ | h⟩
  · subst h
    exact ⟨by decide, by decide⟩
  · subst h
    exact ⟨by decide, by decide⟩
  · subst h
    exact ⟨by decide, by decide⟩

theorem pass1ConsLabelL (pc : Nat) (ls : List (List Token)) :
    Assembler.pass1Aux SymbolTable.empty pc (labLLine :: ls)
      = Assembler.pass1Aux ⟨[("L", pc)], ["L"]⟩ pc ls := rfl

theorem pass2ConsLabelL (st : SymbolTable) (pc : Nat) (ls : List (List Token)) :
    Assembler.pass2Aux st pc (labLLine :: ls) = Assembler.pass2Aux st pc ls := rfl

theorem hugePass1 : Assembler.pass1 hugeProg = .ok ⟨[("L", 0)], ["L"]⟩ := by
  unfold Assembler.pass1 hugeProg
  rw [pass1ConsLabelL]
  rw [pass1ReplicateD8 (2 ^ 29) _ 0 _ (by norm_num [M64])]
  rw [show ((0 + 8 * 2 ^ 29) % M64) = 2 ^ 32 from by norm_num [M64]]
  rfl

theorem hugePass2Tail :
    Assembler.pass2Aux ⟨[("L", 0)], ["L"]⟩ (2 ^ 32) [bLLine] = .ok [0x00, 0x00, 0x00, 0x14] := by
  rfl

theorem hugePass2 :
    Assembler.pass2Aux ⟨[("L", 0)], ["L"]⟩ 0 hugeProg
      = .ok (List.replicate (8 * 2 ^ 29) 0 ++ [0x00, 0x00, 0x00, 0x14]) := by
  unfold hugeProg
  rw [pass2ConsLabelL]
  rw [pass2ReplicateD8 (2 ^ 29) _ 0 _ (by norm_num [M64])]
  rw [show ((0 + 8 * 2 ^ 29) % M64) = 2 ^ 32 from by norm_num [M64]]
  rw [hugePass2Tail]
  rfl

theorem assembleTokensEq (tokens : List Token) :
    Assembler.assembleTokens tokens
      = (match Assembler.pass1 (Assembler.groupLines tokens) with
        | .error e => Except.error e
        | .ok st => Assembler.pass2Aux st 0 (Assembler.groupLines tokens)) := rfl

/-- C2 counterexample: a program of 2^29 `.8byte 0` words between label `L`
and `b L` assembles successfully, but at the branch the pass-2 PC is 2^32
while `lookup L = 0`: the 64-bit difference -2^32 is truncated by
`static_cast<int>` to 0, so the emitted word is 0x14000000 and its
sign-extended immediate times 4 (namely 0) differs from `lookup(L) − PC`. -/
theorem C2_counterexample :
    Assembler.groupLines hugeToks = hugeProg ∧
    isOkE (Assembler.assembleTokens hugeToks) = true ∧
    Assembler.pass1 hugeProg = .ok ⟨[("L", 0)], ["L"]⟩ ∧
    SymbolTable.lookup ⟨[("L", 0)], ["L"]⟩ "L" = .ok 0 ∧
    hugeProg.drop (1 + 2 ^ 29) = [bLLine] ∧
    pcFold 0 (hugeProg.take (1 + 2 ^ 29)) = 2 ^ 32 ∧
    Assembler.pass2Aux ⟨[("L", 0)], ["L"]⟩ (2 ^ 32) [bLLine] = .ok [0x00, 0x00, 0x00, 0x14] ∧
    signExt 26 ((0x14000000 : Nat) &&& 0x3FFFFFF) * 4 ≠ toI64 0 - toI64 (2 ^ 32) := by
  have hg := hugeToksGroup
  have h1 := hugePass1
  have h2 := hugePass2
  refine ⟨hg, ?_, h1, rfl, ?_, ?_, hugePass2Tail, ?_⟩
  · rw [assembleTokensEq, hg, h1]
    show isOkE (Assembler.pass2Aux ⟨[("L", 0)], ["L"]⟩ 0 hugeProg) = true
    rw [h2]
    rfl
  · unfold hugeProg
    rw [show (1 + 2 ^ 29) = (2 ^ 29) + 1 from by omega]
    rw [List.drop_succ_cons]
    nth_rewrite 1 [show (2 ^ 29 : Nat) = (List.replicate (2 ^ 29) d8ZeroLine).length from by
      rw [List.length_replicate]]
    rw [List.drop_left]
  · unfold hugeProg
    rw [show (1 + 2 ^ 29) = (2 ^ 29) + 1 from by omega]
    rw [List.take_succ_cons]
    nth_rewrite 1 [show (2 ^ 29 : Nat) = (List.replicate (2 ^ 29) d8ZeroLine).length from by
      rw [List.length_replicate]]
    rw [List.take_left]
    rw [show ∀ t, pcFold 0 (labLLine :: t) = pcFold ((0 + lineAdvance labLLine) % M64) t
      from fun t => rfl]
    rw [show ((0 + lineAdvance labLLine) % M64) = 0 from by decide]
    rw [pcFoldReplicateD8 (2 ^ 29) 0 (by norm_num [M64])]
    norm_num [M64]
  · decide

/-- C9 amended: the pass-2 `j`-slot offset for a label is the signed 64-bit
difference `lookup(L) − PC` truncated by `static_cast<int>` to 32 bits (the
identity whenever the difference fits signed 32 bits), and `encodeBranch`
rejects any (already truncated) offset that does not fit the 26-bit field
instead of wrapping it; truncation of an out-of-32-bit-range difference,
however, wraps silently (see the counterexample). -/
theorem C9_offset_narrowing (st : SymbolTable) (pc : Nat) (lbl : String) (addr : Nat)
    (hlook : st.lookup lbl = .ok addr) :
    Assembler.patStep st pc 'j' ⟨TokenType.ID, lbl⟩
      = .ok [toI32 (toI64 addr - toI64 pc)] ∧
    (-(2 ^ 31) ≤ toI64 addr - toI64 pc ∧ toI64 addr - toI64 pc ≤ 2 ^ 31 - 1 →
      toI32 (toI64 addr - toI64 pc) = toI64 addr - toI64 pc) ∧
    (∀ off : Int, (off.tmod 4 = 0 ∧ Encoder.validSignedImm (off.tdiv 4) 26 = true) ∨
      isOkE (Encoder.encodeBranch off) = false) := by
  refine ⟨patStepJLabel st pc lbl addr hlook, fun hfit => toI32EqSelf _ hfit.1 hfit.2, ?_⟩
  intro off
  by_cases hok : isOkE (Encoder.encodeBranch off) = true
  · exact Or.inl ((Encoder.encodeBranch_ok_iff off).mp hok)
  · exact Or.inr (by simpa using hok)

/-- C9 witness: the amended theorem at a label at address 8 and PC 0. -/
theorem C9_offset_narrowing_witness :
    Assembler.patStep ⟨[("L", 8)], ["L"]⟩ 0 'j' ⟨TokenType.ID, "L"⟩ = .ok [8] :=
  (C9_offset_narrowing ⟨[("L", 8)], ["L"]⟩ 0 "L" 8 rfl).1

theorem exBindOk {α β : Type} (x : α) (f : α → Except String β) :
    (Except.ok x : Except String α).bind f = f x := rfl

/-- C9 counterexample: on the 2^32-byte program the 64-bit difference
`lookup(L) − PC = −2^32` is truncated to the in-field offset 0 and encoded
silently as 0x14000000 — no error is raised, although the offset does not
fit the 32-bit signed intermediate, and the whole program assembles. -/
theorem C9_counterexample :
    isOkE ((Assembler.pass1 hugeProg).bind
      (fun st => Assembler.pass2Aux st 0 hugeProg)) = true ∧
    Assembler.patStep ⟨[("L", 0)], ["L"]⟩ (2 ^ 32) 'j' ⟨TokenType.ID, "L"⟩ = .ok [0] ∧
    toI64 0 - toI64 (2 ^ 32) = -(2 ^ 32) ∧
    Encoder.encodeBranch 0 = .ok 0x14000000 ∧
    ((0 : Int) ≠ -(2 ^ 32)) := by
  refine ⟨?_, ?_, by decide, rfl, by decide⟩
  · rw [hugePass1, exBindOk, hugePass2]
    rfl
  · rw [patStepJLabel ⟨[("L", 0)], ["L"]⟩ (2 ^ 32) "L" 0 rfl]
    rfl

/-! ## Front-end equivalence (C10 infrastructure) -/

theorem exSimStep {α β : Type} {a b : Except String α} (h : ExSim a b)
    {f g : α → Except String β} (hfg : ∀ x, ExSim (f x) (g x)) :
    ExSim (match a with | .error e => Except.error e | .ok x => f x)
          (match b with | .error e => Except.error e | .ok x => g x) := by
  cases a with
  | error e =>
    cases b with
    | error e2 => exact trivial
    | ok y => exact h.elim
  | ok x =>
    cases b with
    | error e2 => exact h.elim
    | ok y =>
      have hxy : x = y := h
      subst hxy
      exact hfg x

theorem exSimMap {α β : Type} {a b : Except String α} (h : ExSim a b)
    {f g : α → β} (hfg : ∀ x, f x = g x) :
    ExSim (a.map f) (b.map g) := by
  cases a with
  | error e =>
    cases b with
    | error e2 => exact trivial
    | ok y => exact h.elim
  | ok x =>
    cases b with
    | error e2 => exact h.elim
    | ok y =>
      have hxy : x = y := h
      subst hxy
      show f x = g x
      exact hfg x

theorem exSimOk {α : Type} (x : α) : ExSim (Except.ok x) (Except.ok x) := rfl

theorem lowerCatSingle (i : IRInstruction) : lowerCat [i] = IRCodeGen.lowerOne i := by
  unfold lowerCat
  cases h : IRCodeGen.lowerOne i with
  | error e => rfl
  | ok ts =>
    show (match lowerCat [] with
      | Except.error e => Except.error e
      | Except.ok rest => Except.ok (ts ++ rest)) = Except.ok ts
    show Except.ok (ts ++ []) = Except.ok ts
    rw [List.append_nil]

theorem lowerConsEq (i : IRInstruction) (is : List IRInstruction) :
    IRCodeGen.lower (i :: is)
      = (match IRCodeGen.lowerOne i with
        | Except.error e => Except.error e
        | Except.ok ts =>
          match IRCodeGen.lower is with
          | Except.error e => Except.error e
          | Except.ok rest => Except.ok (ts ++ [nlTok] ++ rest)) := rfl

theorem lowerAppend :
    ∀ a b : List IRInstruction,
      IRCodeGen.lower (a ++ b)
        = (IRCodeGen.lower a).bind (fun ta => (IRCodeGen.lower b).map (fun tb => ta ++ tb)) := by
  intro a
  induction a with
  | nil =>
    intro b
    simp only [List.nil_append]
    cases h : IRCodeGen.lower b <;> rfl
  | cons i rest ih =>
    intro b
    rw [List.cons_append, lowerConsEq, lowerConsEq, ih b]
    cases hone : IRCodeGen.lowerOne i with
    | error e => rfl
    | ok ts =>
      cases hrest : IRCodeGen.lower rest with
      | error e => rfl
      | ok tr =>
        cases hb : IRCodeGen.lower b with
        | error e => rfl
        | ok tb2 =>
          show Except.ok (ts ++ [nlTok] ++ (tr ++ tb2))
            = Except.ok (ts ++ [nlTok] ++ tr ++ tb2)
          simp only [List.append_assoc]

theorem exSimCases {α : Type} {a b : Except String α} (h : ExSim a b) :
    (∃ x, a = Except.ok x ∧ b = Except.ok x) ∨
    (∃ e1 e2, a = Except.error e1 ∧ b = Except.error e2) := by
  cases a with
  | error e =>
    cases b with
    | error e2 => exact Or.inr ⟨e, e2, rfl, rfl⟩
    | ok y => exact h.elim
  | ok x =>
    cases b with
    | error e2 => exact h.elim
    | ok y =>
      have hxy : x = y := h
      subst hxy
      exact Or.inl ⟨x, rfl, rfl⟩

theorem isIntLexEq (s : String) : IRCodeGen.isIntLex s = HighLevel.isInteger s := rfl

theorem irIsIntegerEq (s : String) : HighLevelIR.isInteger s = HighLevel.isInteger s := rfl

theorem irIsRegEq (s : String) : HighLevelIR.isReg s = HighLevel.isReg s := rfl

theorem regTokenSim (s : String) : ExSim (HighLevel.regToken s) (IRCodeGen.regToken s) := by
  unfold HighLevel.regToken IRCodeGen.regToken
  split_ifs <;> first | exact rfl | exact trivial

theorem immOrLabelSim (s : String) :
    ExSim (HighLevel.immOrLabel s) (IRCodeGen.immOrLabel s) := by
  unfold HighLevel.immOrLabel IRCodeGen.immOrLabel
  rw [isIntLexEq]
  split_ifs <;> first | exact rfl | exact trivial

theorem condSuffixSim (s : String) :
    ExSim (HighLevel.condSuffix s) (IRCodeGen.condSuffix s) := by
  unfold HighLevel.condSuffix IRCodeGen.condSuffix
  split_ifs <;> first | exact rfl | exact trivial

theorem emit3RegSim (i a b c : String) :
    ExSim (HighLevel.emitInstr i a b c) (IRCodeGen.emit3Reg i a b c) := by
  unfold HighLevel.emitInstr IRCodeGen.emit3Reg
  rcases exSimCases (regTokenSim a) with ⟨ta, h1, h2⟩ | ⟨e1, e2, h1, h2⟩ <;> rw [h1, h2]
  · rcases exSimCases (regTokenSim b) with ⟨tb, h3, h4⟩ | ⟨e3, e4, h3, h4⟩ <;> rw [h3, h4]
    · rcases exSimCases (regTokenSim c) with ⟨tc, h5, h6⟩ | ⟨e5, e6, h5, h6⟩ <;> rw [h5, h6]
      · exact rfl
      · exact trivial
    · exact trivial
  · exact trivial

theorem groupLinesAuxAppendNl :
    ∀ (a b cur : List Token),
      Assembler.groupLinesAux (a ++ [nlTok] ++ b) cur
        = Assembler.groupLinesAux (a ++ [nlTok]) cur ++ Assembler.groupLinesAux b [] := by
  intro a
  induction a with
  | nil =>
    intro b cur
    simp only [List.nil_append, List.singleton_append]
    rw [groupLinesAuxCons, groupLinesAuxCons]
    rw [if_pos (by rfl : nlTok.type = TokenType.NEWLINE),
        if_pos (by rfl : nlTok.type = TokenType.NEWLINE)]
    by_cases hcur : cur = []
    · rw [if_pos hcur, if_pos hcur]
      rfl
    · rw [if_neg hcur, if_neg hcur]
      rfl
  | cons t rest ih =>
    intro b cur
    rw [List.cons_append, List.cons_append, groupLinesAuxCons, groupLinesAuxCons]
    by_cases hnl : t.type = TokenType.NEWLINE
    · rw [if_pos hnl, if_pos hnl]
      by_cases hcur : cur = []
      · rw [if_pos hcur, if_pos hcur, ih b []]
      · rw [if_neg hcur, if_neg hcur, ih b []]
        rfl
    · rw [if_neg hnl, if_neg hnl, ih b (t :: cur)]

theorem groupLinesAppendNl (a b : List Token) :
    Assembler.groupLines (a ++ [nlTok] ++ b)
      = Assembler.groupLines (a ++ [nlTok]) ++ Assembler.groupLines b :=
  groupLinesAuxAppendNl a b []

theorem groupLinesNlCons (ts : List Token) :
    Assembler.groupLines (nlTok :: ts) = Assembler.groupLines ts := rfl

theorem lowerSingle (i : IRInstruction) :
    IRCodeGen.lower [i] = (IRCodeGen.lowerOne i).map (fun ts => ts ++ [nlTok]) := by
  rw [lowerConsEq]
  cases h : IRCodeGen.lowerOne i with
  | error e => rfl
  | ok ts =>
    show Except.ok (ts ++ [nlTok] ++ []) = Except.ok (ts ++ [nlTok])
    rw [List.append_nil]

theorem feMapNl {a b : Except String (List Token)} (h : FrontEndAgree a b) :
    FrontEndAgree (a.map (fun ts => nlTok :: ts)) b := by
  cases a with
  | error e =>
    cases b with
    | error e2 => exact trivial
    | ok y => exact h.elim
  | ok x =>
    cases b with
    | error e2 => exact h.elim
    | ok y =>
      have hg : Assembler.groupLines x = Assembler.groupLines y := h
      show Assembler.groupLines (nlTok :: x) = Assembler.groupLines y
      rw [groupLinesNlCons]
      exact hg

theorem feStepNil (a : Except String (List Token)) (b : Except String (List IRInstruction))
    (h : FrontEndAgree a (b.bind IRCodeGen.lower)) :
    FrontEndAgree (hlStep (Except.ok []) a) ((irStep (Except.ok []) b).bind IRCodeGen.lower) := by
  cases a with
  | error e =>
    cases b with
    | error e2 => exact trivial
    | ok r =>
      rw [exBindOk] at h
      cases hlr : IRCodeGen.lower r with
      | error e3 =>
        show FrontEndAgree (Except.error e) (IRCodeGen.lower r)
        rw [hlr]
        exact trivial
      | ok y =>
        rw [hlr] at h
        exact h.elim
  | ok x =>
    cases b with
    | error e2 => exact h.elim
    | ok r =>
      rw [exBindOk] at h
      cases hlr : IRCodeGen.lower r with
      | error e3 =>
        rw [hlr] at h
        exact h.elim
      | ok y =>
        rw [hlr] at h
        show FrontEndAgree (Except.ok (nlTok :: x)) (IRCodeGen.lower r)
        rw [hlr]
        show Assembler.groupLines (nlTok :: x) = Assembler.groupLines y
        rw [groupLinesNlCons]
        exact h

theorem feStepCons (p : Except String (List Token)) (q : Except String (List IRInstruction))
    (a : Except String (List Token)) (b : Except String (List IRInstruction))
    (hline : ExSim (p.map (fun ts => ts ++ [nlTok])) (q.bind IRCodeGen.lower))
    (h : FrontEndAgree a (b.bind IRCodeGen.lower)) :
    FrontEndAgree (hlStep p a) ((irStep q b).bind IRCodeGen.lower) := by
  cases p with
  | error e =>
    cases q with
    | error e2 => exact trivial
    | ok is =>
      rw [exBindOk] at hline
      cases hlow : IRCodeGen.lower is with
      | error e3 =>
        cases b with
        | error e4 => exact trivial
        | ok r =>
          show FrontEndAgree (Except.error e) (IRCodeGen.lower (is ++ r))
          rw [lowerAppend, hlow]
          exact trivial
      | ok tsi =>
        rw [hlow] at hline
        exact hline.elim
  | ok ts =>
    cases q with
    | error e2 => exact hline.elim
    | ok is =>
      rw [exBindOk] at hline
      cases hlow : IRCodeGen.lower is with
      | error e3 =>
        rw [hlow] at hline
        exact hline.elim
      | ok tsi =>
        rw [hlow] at hline
        have hts : ts ++ [nlTok] = tsi := hline
        cases a with
        | error e4 =>
          cases b with
          | error e5 => exact trivial
          | ok r =>
            rw [exBindOk] at h
            cases hlr : IRCodeGen.lower r with
            | error e6 =>
              show FrontEndAgree (Except.error e4) (IRCodeGen.lower (is ++ r))
              rw [lowerAppend, hlow, hlr]
              exact trivial
            | ok y =>
              rw [hlr] at h
              exact h.elim
        | ok x =>
          cases b with
          | error e5 => exact h.elim
          | ok r =>
            rw [exBindOk] at h
            cases hlr : IRCodeGen.lower r with
            | error e6 =>
              rw [hlr] at h
              exact h.elim
            | ok y =>
              rw [hlr] at h
              have hg : Assembler.groupLines x = Assembler.groupLines y := h
              show FrontEndAgree (Except.ok (ts ++ [nlTok] ++ x)) (IRCodeGen.lower (is ++ r))
              rw [lowerAppend, hlow, hlr]
              show Assembler.groupLines (ts ++ [nlTok] ++ x) = Assembler.groupLines (tsi ++ y)
              rw [← hts, groupLinesAppendNl, groupLinesAppendNl, hg]

theorem hlParseCons (l : String) (ls : List String) :
    HighLevel.parse (l :: ls)
      = (if stripStr l = "" || headCharD (stripStr l) = '#' then
          (HighLevel.parse ls).map (fun ts => nlTok :: ts)
        else
          match HighLevel.parseWords (splitWs (stripStr l)) with
          | Except.error e => Except.error e
          | Except.ok ts =>
            match HighLevel.parse ls with
            | Except.error e => Except.error e
            | Except.ok rest => Except.ok (ts ++ [nlTok] ++ rest)) := rfl

theorem irParseCons (l : String) (ls : List String) :
    HighLevelIR.parse (l :: ls)
      = (if stripStr l = "" || headCharD (stripStr l) = '#' then HighLevelIR.parse ls
        else
          match HighLevelIR.parseWords (splitWs (stripStr l)) with
          | Except.error e => Except.error e
          | Except.ok is =>
            match HighLevelIR.parse ls with
            | Except.error e => Except.error e
            | Except.ok rest => Except.ok (is ++ rest)) := rfl

theorem gotoCaseSim (l : String) :
    ExSim (((HighLevel.immOrLabel l).map (fun t => [⟨TokenType.ID, "b"⟩, t])).map
        (fun ts => ts ++ [nlTok]))
      ((Except.ok [({ op := IROp.BRANCH, label := l } : IRInstruction)]).bind
        IRCodeGen.lower) := by
  rw [exBindOk, lowerSingle]
  exact exSimMap (exSimMap (immOrLabelSim l) (fun _ => rfl)) (fun _ => rfl)

theorem callCaseSim (r : String) :
    ExSim (((HighLevel.regToken r).map (fun t => [⟨TokenType.ID, "blr"⟩, t])).map
        (fun ts => ts ++ [nlTok]))
      ((Except.ok [({ op := IROp.CALL, src1 := r } : IRInstruction)]).bind
        IRCodeGen.lower) := by
  rw [exBindOk, lowerSingle]
  exact exSimMap (exSimMap (regTokenSim r) (fun _ => rfl)) (fun _ => rfl)

theorem data8CaseSim (v : String) :
    ExSim (((HighLevel.immOrLabel v).map (fun t => [⟨TokenType.DOTID, ".8byte"⟩, t])).map
        (fun ts => ts ++ [nlTok]))
      ((Except.ok [({ op := IROp.DATA8, imm := v } : IRInstruction)]).bind
        IRCodeGen.lower) := by
  rw [exBindOk, lowerSingle]
  exact exSimMap (exSimMap (immOrLabelSim v) (fun _ => rfl)) (fun _ => rfl)

theorem ldurSim (d b off : String) :
    ExSim ((HighLevel.ldurToks d b off).map (fun ts => ts ++ [nlTok]))
      ((Except.ok [({ op := IROp.LOAD, dst := d, src1 := b, imm := off } : IRInstruction)]).bind
        IRCodeGen.lower) := by
  rw [exBindOk, lowerSingle]
  refine exSimMap ?_ (fun _ => rfl)
  simp only [HighLevel.ldurToks, IRCodeGen.lowerOne]
  rcases exSimCases (regTokenSim d) with ⟨td, h1, h2⟩ | ⟨e1, e2, h1, h2⟩ <;> rw [h1, h2]
  · rcases exSimCases (regTokenSim b) with ⟨tb, h3, h4⟩ | ⟨e3, e4, h3, h4⟩ <;> rw [h3, h4]
    · exact rfl
    · exact trivial
  · exact trivial

theorem sturSim (v b off : String) :
    ExSim ((HighLevel.sturToks v b off).map (fun ts => ts ++ [nlTok]))
      ((Except.ok [({ op := IROp.STORE, dst := b, src1 := v, imm := off } : IRInstruction)]).bind
        IRCodeGen.lower) := by
  rw [exBindOk, lowerSingle]
  refine exSimMap ?_ (fun _ => rfl)
  simp only [HighLevel.sturToks, IRCodeGen.lowerOne]
  rcases exSimCases (regTokenSim v) with ⟨tv, h1, h2⟩ | ⟨e1, e2, h1, h2⟩ <;> rw [h1, h2]
  · rcases exSimCases (regTokenSim b) with ⟨tb, h3, h4⟩ | ⟨e3, e4, h3, h4⟩ <;> rw [h3, h4]
    · exact rfl
    · exact trivial
  · exact trivial

theorem loadPlusSim (dest b pl off : String) :
    ExSim ((if pl = "+" then HighLevel.ldurToks dest b off
        else Except.error "Bad load syntax").map (fun ts => ts ++ [nlTok]))
      ((if pl = "+" then
          Except.ok [({ op := IROp.LOAD, dst := dest, src1 := b, imm := off } : IRInstruction)]
        else Except.error "Bad load syntax").bind IRCodeGen.lower) := by
  by_cases hpl : pl = "+"
  · simp only [if_pos hpl]
    exact ldurSim dest b off
  · simp only [if_neg hpl]
    exact trivial

theorem loadArmsSim (dest : String) (parts : List String) :
    ExSim ((match parts with
        | [b] => HighLevel.ldurToks dest b "0"
        | [b, pl, off] =>
          if pl = "+" then HighLevel.ldurToks dest b off else Except.error "Bad load syntax"
        | _ => Except.error "Bad load syntax").map (fun ts => ts ++ [nlTok]))
      ((match parts with
        | [b] => Except.ok [({ op := IROp.LOAD, dst := dest, src1 := b, imm := "0" } : IRInstruction)]
        | [b, pl, off] =>
          if pl = "+" then
            Except.ok [({ op := IROp.LOAD, dst := dest, src1 := b, imm := off } : IRInstruction)]
          else Except.error "Bad load syntax"
        | _ => Except.error "Bad load syntax").bind IRCodeGen.lower) := by
  rcases parts with _ | ⟨b, _ | ⟨pl, _ | ⟨off, _ | ⟨z, zs⟩⟩⟩⟩
  · exact trivial
  · exact ldurSim dest b "0"
  · exact trivial
  · exact loadPlusSim dest b pl off
  · exact trivial

theorem parseLoadSim (dest : String) (rhs : List String) :
    ExSim ((HighLevel.parseLoad dest rhs).map (fun ts => ts ++ [nlTok]))
      ((HighLevelIR.parseLoad dest rhs).bind IRCodeGen.lower) := by
  simp only [HighLevel.parseLoad, HighLevelIR.parseLoad]
  split_ifs <;> first | exact loadArmsSim dest _ | exact ldurSim dest _ "0"

theorem storePlusSim (val b pl off : String) :
    ExSim ((if pl = "+" then HighLevel.sturToks val b off
        else Except.error "Bad store syntax").map (fun ts => ts ++ [nlTok]))
      ((if pl = "+" then
          Except.ok [({ op := IROp.STORE, dst := b, src1 := val, imm := off } : IRInstruction)]
        else Except.error "Bad store syntax").bind IRCodeGen.lower) := by
  by_cases hpl : pl = "+"
  · simp only [if_pos hpl]
    exact sturSim val b off
  · simp only [if_neg hpl]
    exact trivial

theorem storeArmsSim (val : String) (parts : List String) :
    ExSim ((match parts with
        | [b] => HighLevel.sturToks val b "0"
        | [b, pl, off] =>
          if pl = "+" then HighLevel.sturToks val b off else Except.error "Bad store syntax"
        | _ => Except.error "Bad store syntax").map (fun ts => ts ++ [nlTok]))
      ((match parts with
        | [b] => Except.ok [({ op := IROp.STORE, dst := b, src1 := val, imm := "0" } : IRInstruction)]
        | [b, pl, off] =>
          if pl = "+" then
            Except.ok [({ op := IROp.STORE, dst := b, src1 := val, imm := off } : IRInstruction)]
          else Except.error "Bad store syntax"
        | _ => Except.error "Bad store syntax").bind IRCodeGen.lower) := by
  rcases parts with _ | ⟨b, _ | ⟨pl, _ | ⟨off, _ | ⟨z, zs⟩⟩⟩⟩
  · exact trivial
  · exact sturSim val b "0"
  · exact trivial
  · exact storePlusSim val b pl off
  · exact trivial

set_option maxHeartbeats 1000000 in
theorem parseStoreSim (ws : List String) (k : Nat) :
    ExSim ((HighLevel.parseStore ws k).map (fun ts => ts ++ [nlTok]))
      ((HighLevelIR.parseStore ws k).bind IRCodeGen.lower) := by
  simp only [HighLevel.parseStore, HighLevelIR.parseStore]
  split_ifs <;>
    first
      | exact trivial
      | exact storeArmsSim _ _
      | exact sturSim _ _ "0"

theorem arithCaseSim (dest a op b : String) :
    ExSim ((if HighLevel.isReg a && HighLevel.isReg b then HighLevel.parseArith dest a op b
        else Except.error "Unrecognized assignment").map (fun ts => ts ++ [nlTok]))
      ((if HighLevelIR.isReg a && HighLevelIR.isReg b then
          (if op = "+" then
            Except.ok [({ op := IROp.ADD, dst := dest, src1 := a, src2 := b } : IRInstruction)]
          else if op = "-" then
            Except.ok [({ op := IROp.SUB, dst := dest, src1 := a, src2 := b } : IRInstruction)]
          else if op = "*" then
            Except.ok [({ op := IROp.MUL, dst := dest, src1 := a, src2 := b } : IRInstruction)]
          else if op = "/" then
            Except.ok [({ op := IROp.DIV, dst := dest, src1 := a, src2 := b } : IRInstruction)]
          else if op = "%" then
            Except.ok [({ op := IROp.MOD, dst := dest, src1 := a, src2 := b } : IRInstruction)]
          else Except.error ("Unknown operator: " ++ op))
        else Except.error "Unrecognized assignment").bind IRCodeGen.lower) := by
  simp only [irIsRegEq]
  by_cases hr : (HighLevel.isReg a && HighLevel.isReg b) = true
  · simp only [if_pos hr, HighLevel.parseArith]
    by_cases h1 : op = "+"
    · simp only [if_pos h1]
      rw [exBindOk, lowerSingle]
      exact exSimMap (emit3RegSim "add" dest a b) (fun _ => rfl)
    · simp only [if_neg h1]
      by_cases h2 : op = "-"
      · simp only [if_pos h2]
        rw [exBindOk, lowerSingle]
        exact exSimMap (emit3RegSim "sub" dest a b) (fun _ => rfl)
      · simp only [if_neg h2]
        by_cases h3 : op = "*"
        · simp only [if_pos h3]
          rw [exBindOk, lowerSingle]
          exact exSimMap (emit3RegSim "mul" dest a b) (fun _ => rfl)
        · simp only [if_neg h3]
          by_cases h4 : op = "/"
          · simp only [if_pos h4]
            rw [exBindOk, lowerSingle]
            exact exSimMap (emit3RegSim "sdiv" dest a b) (fun _ => rfl)
          · simp only [if_neg h4]
            by_cases h5 : op = "%"
            · simp only [if_pos h5]
              rw [exBindOk, lowerSingle]
              refine exSimMap ?_ (fun _ => rfl)
              simp only [IRCodeGen.lowerOne]
              rcases exSimCases (emit3RegSim "sdiv" dest a b) with
                ⟨i1, h1a, h1b⟩ | ⟨e1, e2, h1a, h1b⟩ <;> rw [h1a, h1b]
              · rcases exSimCases (emit3RegSim "mul" dest dest b) with
                  ⟨i2, h2a, h2b⟩ | ⟨e3, e4, h2a, h2b⟩ <;> rw [h2a, h2b]
                · rcases exSimCases (emit3RegSim "sub" dest a dest) with
                    ⟨i3, h3a, h3b⟩ | ⟨e5, e6, h3a, h3b⟩ <;> rw [h3a, h3b]
                  · exact rfl
                  · exact trivial
                · exact trivial
              · exact trivial
            · simp only [if_neg h5]
              exact trivial
  · simp only [if_neg hr]
    exact trivial

theorem oneArgSim (dest r0 : String) :
    ExSim ((if headCharD r0 = '*' then HighLevel.parseLoad dest [r0]
        else if HighLevel.isReg r0 then
          match HighLevel.regToken dest with
          | Except.error e => Except.error e
          | Except.ok td =>
            match HighLevel.regToken r0 with
            | Except.error e => Except.error e
            | Except.ok ta =>
              Except.ok [⟨TokenType.ID, "add"⟩, td, commaTok, ta, commaTok,
                ⟨TokenType.ZREG, "xzr"⟩]
        else Except.error "Unrecognized assignment").map (fun ts => ts ++ [nlTok]))
      ((if headCharD r0 = '*' then HighLevelIR.parseLoad dest [r0]
        else if HighLevelIR.isReg r0 then
          Except.ok [({ op := IROp.MOV, dst := dest, src1 := r0 } : IRInstruction)]
        else Except.error "Unrecognized assignment").bind IRCodeGen.lower) := by
  by_cases hst : headCharD r0 = '*'
  · simp only [if_pos hst]
    exact parseLoadSim dest [r0]
  · simp only [if_neg hst, irIsRegEq]
    by_cases hr : HighLevel.isReg r0 = true
    · simp only [if_pos hr]
      rw [exBindOk, lowerSingle]
      refine exSimMap ?_ (fun _ => rfl)
      simp only [IRCodeGen.lowerOne, IRCodeGen.emit3Reg]
      rcases exSimCases (regTokenSim dest) with ⟨td, h1, h2⟩ | ⟨e1, e2, h1, h2⟩ <;> rw [h1, h2]
      · rcases exSimCases (regTokenSim r0) with ⟨ta, h3, h4⟩ | ⟨e3, e4, h3, h4⟩ <;> rw [h3, h4]
        · exact rfl
        · exact trivial
      · exact trivial
    · simp only [if_neg hr]
      exact trivial

theorem twoArgSim (dest r0 s1 : String) :
    ExSim ((if headCharD r0 = '*' then HighLevel.parseLoad dest [r0, s1]
        else Except.error "Unrecognized assignment").map (fun ts => ts ++ [nlTok]))
      ((if headCharD r0 = '*' then HighLevelIR.parseLoad dest [r0, s1]
        else Except.error "Unrecognized assignment").bind IRCodeGen.lower) := by
  by_cases hst : headCharD r0 = '*'
  · simp only [if_pos hst]
    exact parseLoadSim dest [r0, s1]
  · simp only [if_neg hst]
    exact trivial

theorem threeArgSim (dest r0 s1 s2 : String) :
    ExSim ((if headCharD r0 = '*' then HighLevel.parseLoad dest [r0, s1, s2]
        else if HighLevel.isReg r0 && HighLevel.isReg s2 then HighLevel.parseArith dest r0 s1 s2
        else Except.error "Unrecognized assignment").map (fun ts => ts ++ [nlTok]))
      ((if headCharD r0 = '*' then HighLevelIR.parseLoad dest [r0, s1, s2]
        else if HighLevelIR.isReg r0 && HighLevelIR.isReg s2 then
          (if s1 = "+" then
            Except.ok [({ op := IROp.ADD, dst := dest, src1 := r0, src2 := s2 } : IRInstruction)]
          else if s1 = "-" then
            Except.ok [({ op := IROp.SUB, dst := dest, src1 := r0, src2 := s2 } : IRInstruction)]
          else if s1 = "*" then
            Except.ok [({ op := IROp.MUL, dst := dest, src1 := r0, src2 := s2 } : IRInstruction)]
          else if s1 = "/" then
            Except.ok [({ op := IROp.DIV, dst := dest, src1 := r0, src2 := s2 } : IRInstruction)]
          else if s1 = "%" then
            Except.ok [({ op := IROp.MOD, dst := dest, src1 := r0, src2 := s2 } : IRInstruction)]
          else Except.error ("Unknown operator: " ++ s1))
        else Except.error "Unrecognized assignment").bind IRCodeGen.lower) := by
  by_cases hst : headCharD r0 = '*'
  · simp only [if_pos hst]
    exact parseLoadSim dest [r0, s1, s2]
  · simp only [if_neg hst]
    exact arithCaseSim dest r0 s1 s2

theorem manyArgSim (dest r0 s1 s2 s3 : String) (ss : List String) :
    ExSim ((if headCharD r0 = '*' then HighLevel.parseLoad dest (r0 :: s1 :: s2 :: s3 :: ss)
        else Except.error "Unrecognized assignment").map (fun ts => ts ++ [nlTok]))
      ((if headCharD r0 = '*' then HighLevelIR.parseLoad dest (r0 :: s1 :: s2 :: s3 :: ss)
        else Except.error "Unrecognized assignment").bind IRCodeGen.lower) := by
  by_cases hst : headCharD r0 = '*'
  · simp only [if_pos hst]
    exact parseLoadSim dest (r0 :: s1 :: s2 :: s3 :: ss)
  · simp only [if_neg hst]
    exact trivial

theorem assignRhsSim (dest : String) (rhs : List String) :
    ExSim ((match rhs with
        | [] => Except.error "Unrecognized assignment"
        | r0 :: _ =>
          if headCharD r0 = '*' then HighLevel.parseLoad dest rhs
          else
            match rhs with
            | [a, op2, b2] =>
              if HighLevel.isReg a && HighLevel.isReg b2 then HighLevel.parseArith dest a op2 b2
              else Except.error "Unrecognized assignment"
            | [a] =>
              if HighLevel.isReg a then
                match HighLevel.regToken dest with
                | Except.error e => Except.error e
                | Except.ok td =>
                  match HighLevel.regToken a with
                  | Except.error e => Except.error e
                  | Except.ok ta =>
                    Except.ok [⟨TokenType.ID, "add"⟩, td, commaTok, ta, commaTok,
                      ⟨TokenType.ZREG, "xzr"⟩]
              else Except.error "Unrecognized assignment"
            | _ => Except.error "Unrecognized assignment").map (fun ts => ts ++ [nlTok]))
      ((match rhs with
        | [] => Except.error "Unrecognized assignment"
        | r0 :: _ =>
          if headCharD r0 = '*' then HighLevelIR.parseLoad dest rhs
          else
            match rhs with
            | [a, op2, b2] =>
              if HighLevelIR.isReg a && HighLevelIR.isReg b2 then
                (if op2 = "+" then
                  Except.ok [({ op := IROp.ADD, dst := dest, src1 := a, src2 := b2 } : IRInstruction)]
                else if op2 = "-" then
                  Except.ok [({ op := IROp.SUB, dst := dest, src1 := a, src2 := b2 } : IRInstruction)]
                else if op2 = "*" then
                  Except.ok [({ op := IROp.MUL, dst := dest, src1 := a, src2 := b2 } : IRInstruction)]
                else if op2 = "/" then
                  Except.ok [({ op := IROp.DIV, dst := dest, src1 := a, src2 := b2 } : IRInstruction)]
                else if op2 = "%" then
                  Except.ok [({ op := IROp.MOD, dst := dest, src1 := a, src2 := b2 } : IRInstruction)]
                else Except.error ("Unknown operator: " ++ op2))
              else Except.error "Unrecognized assignment"
            | [a] =>
              if HighLevelIR.isReg a then
                Except.ok [({ op := IROp.MOV, dst := dest, src1 := a } : IRInstruction)]
              else Except.error "Unrecognized assignment"
            | _ => Except.error "Unrecognized assignment").bind IRCodeGen.lower) := by
  rcases rhs with _ | ⟨r0, _ | ⟨s1, _ | ⟨s2, _ | ⟨s3, ss⟩⟩⟩⟩
  · exact trivial
  · exact oneArgSim dest r0
  · exact twoArgSim dest r0 s1
  · exact threeArgSim dest r0 s1 s2
  · exact manyArgSim dest r0 s1 s2 s3 ss

theorem eqDispatchSim (w0 : String) (wrest : List String) (k : Nat) :
    ExSim ((if headCharD w0 = '*' then HighLevel.parseStore (w0 :: wrest) k
        else if k ≠ 1 then Except.error "Expected register = ..."
        else
          match (w0 :: wrest).drop 2 with
          | [] => Except.error "Unrecognized assignment"
          | r0 :: _ =>
            if headCharD r0 = '*' then HighLevel.parseLoad w0 ((w0 :: wrest).drop 2)
            else
              match (w0 :: wrest).drop 2 with
              | [a, op2, b2] =>
                if HighLevel.isReg a && HighLevel.isReg b2 then HighLevel.parseArith w0 a op2 b2
                else Except.error "Unrecognized assignment"
              | [a] =>
                if HighLevel.isReg a then
                  match HighLevel.regToken w0 with
                  | Except.error e => Except.error e
                  | Except.ok td =>
                    match HighLevel.regToken a with
                    | Except.error e => Except.error e
                    | Except.ok ta =>
                      Except.ok [⟨TokenType.ID, "add"⟩, td, commaTok, ta, commaTok,
                        ⟨TokenType.ZREG, "xzr"⟩]
                else Except.error "Unrecognized assignment"
              | _ => Except.error "Unrecognized assignment").map (fun ts => ts ++ [nlTok]))
      ((if headCharD w0 = '*' then HighLevelIR.parseStore (w0 :: wrest) k
        else if k ≠ 1 then Except.error "Expected register = ..."
        else
          match (w0 :: wrest).drop 2 with
          | [] => Except.error "Unrecognized assignment"
          | r0 :: _ =>
            if headCharD r0 = '*' then HighLevelIR.parseLoad w0 ((w0 :: wrest).drop 2)
            else
              match (w0 :: wrest).drop 2 with
              | [a, op2, b2] =>
                if HighLevelIR.isReg a && HighLevelIR.isReg b2 then
                  (if op2 = "+" then
                    Except.ok [({ op := IROp.ADD, dst := w0, src1 := a, src2 := b2 } : IRInstruction)]
                  else if op2 = "-" then
                    Except.ok [({ op := IROp.SUB, dst := w0, src1 := a, src2 := b2 } : IRInstruction)]
                  else if op2 = "*" then
                    Except.ok [({ op := IROp.MUL, dst := w0, src1 := a, src2 := b2 } : IRInstruction)]
                  else if op2 = "/" then
                    Except.ok [({ op := IROp.DIV, dst := w0, src1 := a, src2 := b2 } : IRInstruction)]
                  else if op2 = "%" then
                    Except.ok [({ op := IROp.MOD, dst := w0, src1 := a, src2 := b2 } : IRInstruction)]
                  else Except.error ("Unknown operator: " ++ op2))
                else Except.error "Unrecognized assignment"
              | [a] =>
                if HighLevelIR.isReg a then
                  Except.ok [({ op := IROp.MOV, dst := w0, src1 := a } : IRInstruction)]
                else Except.error "Unrecognized assignment"
              | _ => Except.error "Unrecognized assignment").bind IRCodeGen.lower) := by
  by_cases hst : headCharD w0 = '*'
  · simp only [if_pos hst]
    exact parseStoreSim (w0 :: wrest) k
  · simp only [if_neg hst]
    by_cases hk : k ≠ 1
    · simp only [if_pos hk]
      exact trivial
    · simp only [if_neg hk]
      exact assignRhsSim w0 ((w0 :: wrest).drop 2)

theorem cmpCaseSim (rn op rm g lbl : String) :
    ExSim ((if g ≠ "goto" then Except.error "Syntax: if reg op reg goto label"
        else
          match HighLevel.regToken rn with
          | Except.error e => Except.error e
          | Except.ok t1 =>
            match HighLevel.regToken rm with
            | Except.error e => Except.error e
            | Except.ok t2 =>
              match HighLevel.condSuffix op with
              | Except.error e => Except.error e
              | Except.ok cs =>
                match HighLevel.immOrLabel lbl with
                | Except.error e => Except.error e
                | Except.ok t3 =>
                  Except.ok [⟨TokenType.ID, "cmp"⟩, t1, commaTok, t2, nlTok,
                    ⟨TokenType.ID, "b"⟩, ⟨TokenType.DOTID, cs⟩, t3]).map (fun ts => ts ++ [nlTok]))
      ((if g ≠ "goto" then Except.error "Syntax: if reg op reg goto label"
        else
          Except.ok [({ op := IROp.CMP_BRANCH, src1 := rn, src2 := rm, label := lbl, cond := op } : IRInstruction)]).bind IRCodeGen.lower) := by
  by_cases hg : g ≠ "goto"
  · simp only [if_pos hg]
    exact trivial
  · simp only [if_neg hg]
    rw [exBindOk, lowerSingle]
    refine exSimMap ?_ (fun _ => rfl)
    simp only [IRCodeGen.lowerOne]
    rcases exSimCases (regTokenSim rn) with ⟨t1, h1, h2⟩ | ⟨e1, e2, h1, h2⟩ <;> rw [h1, h2]
    · rcases exSimCases (regTokenSim rm) with ⟨t2, h3, h4⟩ | ⟨e3, e4, h3, h4⟩ <;> rw [h3, h4]
      · rcases exSimCases (condSuffixSim op) with ⟨cs, h5, h6⟩ | ⟨e5, e6, h5, h6⟩ <;> rw [h5, h6]
        · rcases exSimCases (immOrLabelSim lbl) with ⟨t3, h7, h8⟩ | ⟨e7, e8, h7, h8⟩ <;> rw [h7, h8]
          · exact rfl
          · exact trivial
        · exact trivial
      · exact trivial
    · exact trivial

theorem lineSim (w0 : String) (wrest : List String) :
    ExSim ((HighLevel.parseWords (w0 :: wrest)).map (fun ts => ts ++ [nlTok]))
          ((HighLevelIR.parseWords (w0 :: wrest)).bind IRCodeGen.lower) := by
  simp only [HighLevel.parseWords, HighLevelIR.parseWords]
  by_cases h0 : w0 = "label"
  · simp only [if_pos h0]
    cases wrest with
    | nil => exact trivial
    | cons n r => exact rfl
  · simp only [if_neg h0]
    by_cases h1 : w0 = "goto"
    · simp only [if_pos h1]
      cases wrest with
      | nil => exact trivial
      | cons l r => exact gotoCaseSim l
    · simp only [if_neg h1]
      by_cases h2 : w0 = "call"
      · simp only [if_pos h2]
        cases wrest with
        | nil => exact trivial
        | cons r rr => exact callCaseSim r
      · simp only [if_neg h2]
        by_cases h3 : w0 = "ret"
        · simp only [if_pos h3]
          exact rfl
        · simp only [if_neg h3]
          by_cases h4 : w0 = ".8byte"
          · simp only [if_pos h4]
            cases wrest with
            | nil => exact trivial
            | cons v r => exact data8CaseSim v
          · simp only [if_neg h4]
            by_cases h5 : w0 = "if"
            · simp only [if_pos h5]
              rcases wrest with _ | ⟨rn, _ | ⟨op2, _ | ⟨rm, _ | ⟨g, _ | ⟨lbl, tl⟩⟩⟩⟩⟩
              · exact trivial
              · exact trivial
              · exact trivial
              · exact trivial
              · exact trivial
              · exact cmpCaseSim rn op2 rm g lbl
            · simp only [if_neg h5]
              cases hfind : List.findIdx? (fun w => w = "=") (w0 :: wrest) with
              | none => exact trivial
              | some k => exact eqDispatchSim w0 wrest k

theorem parseAgree : ∀ (lines : List String),
    FrontEndAgree (HighLevel.parse lines) ((HighLevelIR.parse lines).bind IRCodeGen.lower) := by
  intro lines
  induction lines with
  | nil => exact rfl
  | cons l ls ih =>
    rw [hlParseCons, irParseCons]
    by_cases hblank : stripStr l = "" || headCharD (stripStr l) = '#'
    · simp only [if_pos hblank]
      exact feMapNl ih
    · simp only [if_neg hblank]
      cases hws : splitWs (stripStr l) with
      | nil => exact feStepNil (HighLevel.parse ls) (HighLevelIR.parse ls) ih
      | cons w0 wrest =>
        exact feStepCons (HighLevel.parseWords (w0 :: wrest))
          (HighLevelIR.parseWords (w0 :: wrest)) (HighLevel.parse ls) (HighLevelIR.parse ls)
          (lineSim w0 wrest) ih

/-- C10: the two pseudocode front-ends are equivalent. For every input line
list, the token-emitting HighLevelParser and the composition of the
IR-producing HighLevelParser with IRCodeGen::lower either both fail, or both
succeed with token streams that group into the same statement sequence
(differing only in the NEWLINE tokens emitted for comment and blank lines);
in the latter case both streams assemble to identical output bytes. -/
theorem C10_frontend_equiv (lines : List String) :
    FrontEndAgree (HighLevel.parse lines) ((HighLevelIR.parse lines).bind IRCodeGen.lower) ∧
    (∀ x y, HighLevel.parse lines = Except.ok x →
      (HighLevelIR.parse lines).bind IRCodeGen.lower = Except.ok y →
      Assembler.assembleTokens x = Assembler.assembleTokens y) := by
  refine ⟨parseAgree lines, ?_⟩
  intro x y hx hy
  have h := parseAgree lines
  rw [hx, hy] at h
  have hg : Assembler.groupLines x = Assembler.groupLines y := h
  rw [assembleTokensEq, assembleTokensEq, hg]

/-- C10 witness: on the input `["", "x1 = x2 + x3"]` the two front-ends
produce different token streams (the blank line adds a lone NEWLINE in the
token-emitting parser only), yet both assemble identically. -/
theorem C10_frontend_equiv_witness :
    Assembler.assembleTokens [nlTok, ⟨TokenType.ID, "add"⟩, ⟨TokenType.REG, "x1"⟩, commaTok,
        ⟨TokenType.REG, "x2"⟩, commaTok, ⟨TokenType.REG, "x3"⟩, nlTok]
      = Assembler.assembleTokens [⟨TokenType.ID, "add"⟩, ⟨TokenType.REG, "x1"⟩, commaTok,
        ⟨TokenType.REG, "x2"⟩, commaTok, ⟨TokenType.REG, "x3"⟩, nlTok] :=
  (C10_frontend_equiv ["", "x1 = x2 + x3"]).2
    [nlTok, ⟨TokenType.ID, "add"⟩, ⟨TokenType.REG, "x1"⟩, commaTok,
      ⟨TokenType.REG, "x2"⟩, commaTok, ⟨TokenType.REG, "x3"⟩, nlTok]
    [⟨TokenType.ID, "add"⟩, ⟨TokenType.REG, "x1"⟩, commaTok,
      ⟨TokenType.REG, "x2"⟩, commaTok, ⟨TokenType.REG, "x3"⟩, nlTok]
    rfl rfl
